import Mathlib

/-!
The dock widget of obs-multi-rtmp that owns the push targets: a shallow
embedding of `src/obs-multi-rtmp.cpp`, covering

* `GlobalServiceImpl.RunInUIThread` (lines 18-25) and the designation of the
  UI thread in `obs_module_load` (lines 220-222);
* `MultiOutputWidget`: the click handlers of the three buttons (lines 67-74,
  87-94), `GetAllPushWidgets` (134-146), `SaveConfig` (148-162),
  `LoadConfig` (164-199);
* the frontend event callback registered by `obs_module_load` (229-245).

Objects live at addresses (natural numbers); a pointer is an `Option Nat`,
`none` being `nullptr`.  Code that dereferences a pointer returns an `Option`:
`none` stands for undefined behaviour (a null or dangling pointer).
Calls that leave the translation unit (methods of `PushWidget`, the libobs
configuration API) are recorded, in order, in the `calls` field of the state.
-/

namespace ObsMultiRtmp

/-! ## Qt JSON -/

/-- A `QJsonValue`.  The payload of a number is never inspected by this
translation unit; it is kept as the bit pattern of the double. -/
inductive QJsonValue where
  | null
  | bool (b : Bool)
  | double (bits : Nat)
  | string (s : String)
  | array (a : List QJsonValue)
  | object (o : List (String × QJsonValue))

/-- A `QJsonArray`. -/
abbrev QJsonArray := List QJsonValue

/-- A `QJsonObject`: the members, by key. -/
abbrev QJsonObject := List (String × QJsonValue)

/-- Qt `QJsonValue::isObject`. -/
def QJsonValue.isObject : QJsonValue → Bool
  | .object _ => true
  | _ => false

/-- Qt `QJsonValue::isArray`. -/
def QJsonValue.isArray : QJsonValue → Bool
  | .array _ => true
  | _ => false

/-- Qt `QJsonValue::toObject`: the empty object for a value that is not an object. -/
def QJsonValue.toObject : QJsonValue → QJsonObject
  | .object o => o
  | _ => []

/-- Qt `QJsonValue::toArray`: the empty array for a value that is not an array. -/
def QJsonValue.toArray : QJsonValue → QJsonArray
  | .array a => a
  | _ => []

/-- Qt `QJsonObject::find`: the value stored under `key`, `none` for `end()`. -/
def QJsonObject.find (o : QJsonObject) (key : String) : Option QJsonValue :=
  match o with
  | [] => none
  | (k, v) :: rest => if k = key then some v else QJsonObject.find rest key

/-- Qt `QJsonObject::operator[]` followed by an assignment: `o[key] = value`. -/
def QJsonObject.assign (o : QJsonObject) (key : String) (value : QJsonValue) : QJsonObject :=
  o.filter (fun kv => decide (kv.1 ≠ key)) ++ [(key, value)]

/-- A `QJsonDocument`: null (default constructed, or the result of a failed
parse), an array or an object. -/
inductive QJsonDocument where
  | null
  | ofArray (a : QJsonArray)
  | ofObject (o : QJsonObject)

/-- Qt `QJsonDocument::isObject`. -/
def QJsonDocument.isObject : QJsonDocument → Bool
  | .ofObject _ => true
  | _ => false

/-- Qt `QJsonDocument::object`: the empty object for a document that holds none. -/
def QJsonDocument.object : QJsonDocument → QJsonObject
  | .ofObject o => o
  | _ => []

/-- Qt `QJsonDocument::setObject` on a default-constructed document. -/
def QJsonDocument.setObject (_ : QJsonDocument) (o : QJsonObject) : QJsonDocument :=
  .ofObject o

/-- The two Qt conversions between a document and the C string kept in the
configuration store.  They are library code and stay parameters:
`toBase64Json d` is `d.toJson().toBase64().constData()` (line 159) and
`fromBase64Json s` is `QJsonDocument::fromJson(QByteArray::fromBase64(s))`
(lines 176-177), the null document when `s` does not parse. -/
structure QtCodec where
  toBase64Json : QJsonDocument → String
  fromBase64Json : String → QJsonDocument

/-! ## libobs configuration files -/

/-- A libobs `config_t`: the values in memory, by section and name, and the
values last committed to the file. -/
structure config_t where
  values : List ((String × String) × String)
  file : List ((String × String) × String)
  deriving DecidableEq

/-- The libobs call `config_get_string`: `none` is the `NULL` returned for a missing value. -/
def config_get_string (config : config_t) (sec name : String) : Option String :=
  (config.values.find? (fun kv => decide (kv.1 = (sec, name)))).map Prod.snd

/-- The libobs call `config_set_string`. -/
def config_set_string (config : config_t) (sec name value : String) : config_t :=
  { config with
    values := ((sec, name), value) :: config.values.filter (fun kv => decide (kv.1 ≠ (sec, name))) }

/-- The libobs call `config_save_safe`: commits the values in memory to the file. -/
def config_save_safe (config : config_t) : config_t :=
  { config with file := config.values }

/-- The constant `ConfigSection`, defined as `"obs-multi-rtmp"` on line 13. -/
def ConfigSection : String := "obs-multi-rtmp"

/-- Which of the two configuration files of the host a call addresses. -/
inductive ConfigHandle where
  | profile_config
  | global_config
  deriving DecidableEq

/-! ## Host events and push widgets -/

/-- Modelled from the spec: `enum obs_frontend_event` comes from a header of
the host that is not part of the sources.  Section 6 of the spec asks for
`Exit`, `ProfileChanged` and a generic bucket for every other event. -/
inductive obs_frontend_event where
  | OBS_FRONTEND_EVENT_EXIT
  | OBS_FRONTEND_EVENT_PROFILE_CHANGED
  | other (code : Nat)
  deriving DecidableEq

/-- Modelled from the spec: class `PushWidget` is declared in `push-widget.h`,
which is not part of the sources.  The methods this translation unit calls are
kept as parameters over an arbitrary widget state `W`: `create conf` is the
state of the widget built by `createPushWidget(conf, parent)`, `Config` is
`Config()`, `ShowEditDlg` returns whether the dialog was confirmed together
with the widget as the dialog left it, and the remaining three are the
methods of the same name.  A method acts on its own widget only and returns
normally, whatever state it leaves the widget in. -/
structure PushWidgetImpl (W : Type) where
  create : QJsonObject → W
  Config : W → QJsonObject
  ShowEditDlg : W → Bool × W
  StartStreaming : W → W
  StopStreaming : W → W
  OnOBSEvent : obs_frontend_event → W → W

/-- A call that leaves the translation unit. -/
inductive Call where
  | OnOBSEvent (x : Nat) (event : obs_frontend_event)
  | StartStreaming (x : Nat)
  | StopStreaming (x : Nat)
  | ShowEditDlg (x : Nat)
  | config_set_string (config : ConfigHandle) (sec name value : String)
  | config_save_safe (config : ConfigHandle)
  deriving DecidableEq

/-- Whether a call writes a configuration store. -/
def Call.isStoreWrite : Call → Bool
  | .config_set_string _ _ _ _ => true
  | .config_save_safe _ => true
  | _ => false

/-- A child `QObject` of `container_`: its address, its `objectName()` and,
when the object is a `PushWidget`, the state of that widget (`none` for the
layout, the buttons and every other object, on which
`dynamic_cast<PushWidget*>` yields `nullptr`). -/
structure QObject (W : Type) where
  ptr : Nat
  objectName : String
  pushWidget : Option W

/-- The state the dock widget works on: the children of `container_` in the
order of `container_->children()`, the next address handed out by `new`, the
two configuration files of the host, and the calls made so far. -/
structure State (W : Type) where
  children : List (QObject W)
  fresh : Nat
  profile_config : config_t
  global_config : config_t
  calls : List Call

variable {W : Type}

/-- The cast `dynamic_cast<PushWidget*>(c)`. -/
def dynamic_cast (c : QObject W) : Option Nat :=
  if c.pushWidget.isSome then some c.ptr else none

/-- The loop of `GetAllPushWidgets` (lines 137-144). -/
def GetAllPushWidgets.loop : List (QObject W) → List (Option Nat) → List (Option Nat)
  | [], result => result
  | c :: rest, result =>
    if c.objectName = "push-widget" then
      GetAllPushWidgets.loop rest (result ++ [dynamic_cast c])
    else
      GetAllPushWidgets.loop rest result

/-- The method `MultiOutputWidget::GetAllPushWidgets` (lines 134-146). -/
def GetAllPushWidgets (s : State W) : List (Option Nat) :=
  GetAllPushWidgets.loop s.children []

/-- The widget a pointer addresses, `none` when there is no live `PushWidget`
at that address. -/
def deref (s : State W) (x : Option Nat) : Option W :=
  match x with
  | none => none
  | some p => (s.children.find? (fun c => decide (c.ptr = p))).bind QObject.pushWidget

/-- Writes the state of the widget at address `p`. -/
def assignAt (s : State W) (p : Nat) (st : W) : State W :=
  { s with
    children := s.children.map (fun c => if c.ptr = p then { c with pushWidget := some st } else c) }

/-- The method call `x->method()` for a method that returns nothing: `f` is
the effect of the method on the widget and `call` the entry it leaves in the
record of calls. -/
def invoke (f : W → W) (call : Nat → Call) (x : Option Nat) (s : State W) : Option (State W) :=
  match x with
  | none => none
  | some p =>
    match deref s (some p) with
    | none => none
    | some st => some { assignAt s p (f st) with calls := s.calls ++ [call p] }

/-- The statement `for (auto x : xs) x->method();`. -/
def forEach (f : W → W) (call : Nat → Call) : List (Option Nat) → State W → Option (State W)
  | [], s => some s
  | x :: xs, s =>
    match invoke f call x s with
    | none => none
    | some s1 => forEach f call xs s1

/-- The expression `delete x`: nothing for `nullptr`; the destructor of a
`QObject` removes it from the children of its parent. -/
def delete (x : Option Nat) (s : State W) : State W :=
  match x with
  | none => s
  | some p => { s with children := s.children.filter (fun c => decide (c.ptr ≠ p)) }

/-- Modelled from the spec: `createPushWidget(conf, parent)` is defined
outside the sources.  It returns a new `PushWidget` that is a child of
`parent`; section 9 of the spec says the target list is recovered by scanning
the children for a string tag, which `GetAllPushWidgets` shows to be the
object name `push-widget`. -/
def createPushWidget (M : PushWidgetImpl W) (conf : QJsonObject) (s : State W) : Nat × State W :=
  (s.fresh,
   { s with
     children := s.children ++ [{ ptr := s.fresh, objectName := "push-widget",
                                  pushWidget := some (M.create conf) }],
     fresh := s.fresh + 1 })

/-- The loop of `SaveConfig` (lines 153-154). -/
def SaveConfig.loop (M : PushWidgetImpl W) (s : State W) :
    List (Option Nat) → QJsonArray → Option QJsonArray
  | [], targetlist => some targetlist
  | x :: xs, targetlist =>
    match deref s x with
    | none => none
    | some st => SaveConfig.loop M s xs (targetlist ++ [QJsonValue.object (M.Config st)])

/-- The method `MultiOutputWidget::SaveConfig` (lines 148-162). -/
def SaveConfig (M : PushWidgetImpl W) (E : QtCodec) (s : State W) : Option (State W) :=
  match SaveConfig.loop M s (GetAllPushWidgets s) [] with
  | none => none
  | some targetlist =>
    let root := QJsonObject.assign [] "targets" (QJsonValue.array targetlist)
    let jsondoc := QJsonDocument.setObject QJsonDocument.null root
    let value := E.toBase64Json jsondoc
    some { s with
      profile_config :=
        config_save_safe (config_set_string s.profile_config ConfigSection "json" value),
      calls := s.calls ++
        [Call.config_set_string ConfigHandle.profile_config ConfigSection "json" value,
         Call.config_save_safe ConfigHandle.profile_config] }

/-- The string `LoadConfig` decodes (lines 169-172): the value of the profile
store, or that of the global store when the former is `NULL` or empty. -/
def LoadConfig.base64str (s : State W) : Option String :=
  let base64str := config_get_string s.profile_config ConfigSection "json"
  match base64str with
  | none => config_get_string s.global_config ConfigSection "json"
  | some str =>
    if str = "" then config_get_string s.global_config ConfigSection "json" else some str

/-- The loop that removes all existing widgets (lines 182-183). -/
def LoadConfig.deleteLoop : List (Option Nat) → State W → State W
  | [], s => s
  | x :: xs, s => LoadConfig.deleteLoop xs (delete x s)

/-- The loop over the array of targets (lines 190-197). -/
def LoadConfig.createLoop (M : PushWidgetImpl W) : QJsonArray → State W → State W
  | [], s => s
  | x :: xs, s =>
    if x.isObject then
      LoadConfig.createLoop M xs (createPushWidget M x.toObject s).2
    else
      LoadConfig.createLoop M xs s

/-- Lines 174-198 of `LoadConfig`, as a function of the string chosen by
lines 169-172. -/
def LoadConfig.fromString (M : PushWidgetImpl W) (E : QtCodec) (base64str : Option String)
    (s : State W) : State W :=
  let r : QJsonObject × State W :=
    match base64str with
    | none => ([], s)
    | some str =>
      if str = "" then ([], s)
      else
        let jsondoc := E.fromBase64Json str
        if jsondoc.isObject then
          (jsondoc.object, LoadConfig.deleteLoop (GetAllPushWidgets s) s)
        else ([], s)
  match QJsonObject.find r.1 "targets" with
  | none => r.2
  | some targets =>
    if targets.isArray then LoadConfig.createLoop M targets.toArray r.2 else r.2

/-- The method `MultiOutputWidget::LoadConfig` (lines 164-199). -/
def LoadConfig (M : PushWidgetImpl W) (E : QtCodec) (s : State W) : State W :=
  LoadConfig.fromString M E (LoadConfig.base64str s) s

/-- The handler of the button that starts all targets (lines 87-90). -/
def startAllButton_clicked (M : PushWidgetImpl W) (s : State W) : Option (State W) :=
  forEach M.StartStreaming Call.StartStreaming (GetAllPushWidgets s) s

/-- The handler of the button that stops all targets (lines 91-94). -/
def stopAllButton_clicked (M : PushWidgetImpl W) (s : State W) : Option (State W) :=
  forEach M.StopStreaming Call.StopStreaming (GetAllPushWidgets s) s

/-- The method call `x->ShowEditDlg()`: whether the dialog was confirmed, and
the state the dialog leaves. -/
def ShowEditDlg (M : PushWidgetImpl W) (x : Option Nat) (s : State W) :
    Option (Bool × State W) :=
  match x with
  | none => none
  | some p =>
    match deref s (some p) with
    | none => none
    | some st =>
      some ((M.ShowEditDlg st).1,
            { assignAt s p (M.ShowEditDlg st).2 with calls := s.calls ++ [Call.ShowEditDlg p] })

/-- Lines 68-69 of the handler of the button for a new target: the state in
which the edit dialog of line 70 is shown, and the address of the new widget.
The layout only places the widget, which is a child of `container_` already. -/
def addButton_clicked.created (M : PushWidgetImpl W) (s : State W) : Nat × State W :=
  createPushWidget M [] s

/-- The handler of the button for a new target (lines 67-74). -/
def addButton_clicked (M : PushWidgetImpl W) (E : QtCodec) (s : State W) : Option (State W) :=
  let pushwidget := some (addButton_clicked.created M s).1
  match ShowEditDlg M pushwidget (addButton_clicked.created M s).2 with
  | none => none
  | some (true, s1) => SaveConfig M E s1
  | some (false, s1) => some (delete pushwidget s1)

/-- The callback given to `obs_frontend_add_event_callback` (lines 230-244). -/
def frontend_event_callback (M : PushWidgetImpl W) (E : QtCodec) (event : obs_frontend_event)
    (s : State W) : Option (State W) :=
  match forEach (M.OnOBSEvent event) (fun x => Call.OnOBSEvent x event) (GetAllPushWidgets s) s with
  | none => none
  | some s1 =>
    if event = obs_frontend_event.OBS_FRONTEND_EVENT_EXIT then
      SaveConfig M E s1
    else if event = obs_frontend_event.OBS_FRONTEND_EVENT_PROFILE_CHANGED then
      some (LoadConfig M E s1)
    else
      some s1

/-! ## The global service -/

/-- The class `GlobalServiceImpl` (lines 15-29): `uiThread_` is the address of
a `QThread`, `none` for `nullptr`; `invoked` lists the calls
`QMetaObject::invokeMethod(context, functor)` made by `RunInUIThread`, each
with its context object and the task the functor runs.  `F` is the type of
tasks, `std::function<void()>`. -/
structure GlobalServiceImpl (F : Type) where
  uiThread_ : Option Nat
  invoked : List (Nat × F)

/-- The instance `s_service` as it is initialised (line 27: `uiThread_ = nullptr`). -/
def s_service (F : Type) : GlobalServiceImpl F :=
  { uiThread_ := none, invoked := [] }

/-- The method `GlobalServiceImpl::RunInUIThread` (lines 18-25). -/
def GlobalServiceImpl.RunInUIThread {F : Type} (g : GlobalServiceImpl F) (task : F) :
    Bool × GlobalServiceImpl F :=
  match g.uiThread_ with
  | none => (false, g)
  | some t => (true, { g with invoked := g.invoked ++ [(t, task)] })

/-- The functor `obs_module_load` hands to the main window (lines 220-222),
run on the thread at address `currentThread`. -/
def obs_module_load.designate {F : Type} (currentThread : Nat) (g : GlobalServiceImpl F) :
    GlobalServiceImpl F :=
  { g with uiThread_ := some currentThread }

/-! ## Views used by the specifications -/

/-- The registry: the push widgets among the children, each with its address,
in the order of the children. -/
def registry (s : State W) : List (Nat × W) :=
  s.children.filterMap (fun c =>
    if c.objectName = "push-widget" then c.pushWidget.map (fun st => (c.ptr, st)) else none)

/-- The states that describe a memory: no two children share an address, every
address in use is below the next one `new` hands out, and every child named
`push-widget` is a `PushWidget`. -/
structure WellFormed (s : State W) : Prop where
  nodup : (s.children.map QObject.ptr).Nodup
  below : ∀ c ∈ s.children, c.ptr < s.fresh
  isPush : ∀ c ∈ s.children, c.objectName = "push-widget" → c.pushWidget.isSome = true

/-- Whether a state is well formed can be computed. -/
instance WellFormed.decidable (s : State W) : Decidable (WellFormed s) :=
  decidable_of_iff
    ((s.children.map QObject.ptr).Nodup ∧ (∀ c ∈ s.children, c.ptr < s.fresh) ∧
      ∀ c ∈ s.children, c.objectName = "push-widget" → c.pushWidget.isSome = true)
    ⟨fun h => ⟨h.1, h.2.1, h.2.2⟩, fun h => ⟨h.nodup, h.below, h.isPush⟩⟩

/-- The value stored under the key of the plugin in a configuration file. -/
def stored (config : config_t) : Option String :=
  config_get_string config ConfigSection "json"

/-- The document `SaveConfig` builds from a list of target configurations. -/
def documentOf (confs : List QJsonObject) : QJsonDocument :=
  QJsonDocument.ofObject [("targets", QJsonValue.array (confs.map QJsonValue.object))]

/-- The calls of a record that write a configuration store. -/
def storeWrites (calls : List Call) : List Call :=
  calls.filter Call.isStoreWrite

/-- Applies `f` to the widget state of a child that is a `PushWidget`. -/
def QObject.update (f : W → W) (c : QObject W) : QObject W :=
  { c with pushWidget := c.pushWidget.map f }

/-- The state after a method with effect `f` was called once on every push
widget, in the order of the registry, `call x` being the entry the call on the
widget at `x` leaves in the record. -/
def State.afterEach (f : W → W) (call : Nat → Call) (s : State W) : State W :=
  { s with
    children := s.children.map (fun c => if c.objectName = "push-widget" then c.update f else c),
    calls := s.calls ++ (registry s).map (fun r => call r.1) }

/-- The state after `SaveConfig` wrote `value`. -/
def State.afterSave (value : String) (s : State W) : State W :=
  { s with
    profile_config :=
      config_save_safe (config_set_string s.profile_config ConfigSection "json" value),
    calls := s.calls ++
      [Call.config_set_string ConfigHandle.profile_config ConfigSection "json" value,
       Call.config_save_safe ConfigHandle.profile_config] }

/-- The object a JSON value holds, `none` for a value that is not an object. -/
def QJsonValue.asObject : QJsonValue → Option QJsonObject
  | .object o => some o
  | _ => none

/-- The entries of the array `targets` of a configuration object that are
objects, in the order of the array; none when there is no such array. -/
def targetObjects (conf : QJsonObject) : List QJsonObject :=
  match QJsonObject.find conf "targets" with
  | some (QJsonValue.array a) => a.filterMap QJsonValue.asObject
  | _ => []

/-- The widgets created, one after the other, from a list of configurations
when `start` is the first free address. -/
def newWidgets (M : PushWidgetImpl W) (start : Nat) : List QJsonObject → List (QObject W)
  | [] => []
  | o :: os =>
    { ptr := start, objectName := "push-widget", pushWidget := some (M.create o) } ::
      newWidgets M (start + 1) os

/-- The state after a `LoadConfig` that decoded the configuration object `conf`. -/
def State.afterLoad (M : PushWidgetImpl W) (conf : QJsonObject) (s : State W) : State W :=
  { s with
    children := s.children.filter (fun c => decide (c.objectName ≠ "push-widget")) ++
      newWidgets M s.fresh (targetObjects conf),
    fresh := s.fresh + (targetObjects conf).length }

/-- The store is left alone between two states: both configuration files are
the same and no call that writes a store was added to the record. -/
def StoreUntouched (s s1 : State W) : Prop :=
  s1.profile_config = s.profile_config ∧ s1.global_config = s.global_config ∧
    storeWrites s1.calls = storeWrites s.calls

/-- Whether the store is left alone between two states can be computed. -/
instance StoreUntouched.decidable (s s1 : State W) : Decidable (StoreUntouched s s1) :=
  inferInstanceAs (Decidable (_ ∧ _ ∧ _))

/-- The state in which the edit dialog of a new target has returned: the new
widget, at the address that was free, is the last child and holds what the
dialog left. -/
def State.afterDialog (M : PushWidgetImpl W) (s : State W) : State W :=
  { s with
    children := s.children ++
      [{ ptr := s.fresh, objectName := "push-widget",
         pushWidget := some (M.ShowEditDlg (M.create [])).2 }],
    fresh := s.fresh + 1,
    calls := s.calls ++ [Call.ShowEditDlg s.fresh] }

/-- The dock widget as its constructor leaves it (lines 44-105), for the two
configuration files of the host: the children of `container_` are the layout,
the button for a new target and the container of the two other buttons, none
of which is given an object name, and then `LoadConfig` runs (line 97). -/
def MultiOutputWidget.constructed (M : PushWidgetImpl W) (E : QtCodec)
    (profile_config global_config : config_t) : State W :=
  LoadConfig M E
    { children :=
        [{ ptr := 0, objectName := "", pushWidget := none },
         { ptr := 1, objectName := "", pushWidget := none },
         { ptr := 2, objectName := "", pushWidget := none }],
      fresh := 3,
      profile_config := profile_config,
      global_config := global_config,
      calls := [] }

/-! ## An example instance, for concrete evaluation -/

namespace Example

/-- The streaming status of the example target. -/
inductive Status where
  | Idle
  | Streaming
  | Error
  deriving DecidableEq

/-- An example target: its configuration and its status. -/
structure Target where
  conf : QJsonObject
  status : Status

/-- An example implementation of the push widget.  A target starts when its
configuration has an `endpoint` and ends in `Error` otherwise; on the exit
event it drops the member `transient` of its configuration; the edit dialog
sets the endpoint and is confirmed or cancelled as `confirm` says. -/
def impl (confirm : Bool) : PushWidgetImpl Target where
  create := fun conf => { conf := conf, status := Status.Idle }
  Config := fun t => t.conf
  ShowEditDlg := fun t =>
    (confirm, { t with conf := [("endpoint", QJsonValue.string "rtmp://new")] })
  StartStreaming := fun t =>
    match QJsonObject.find t.conf "endpoint" with
    | some _ => { t with status := Status.Streaming }
    | none => { t with status := Status.Error }
  StopStreaming := fun t => { t with status := Status.Idle }
  OnOBSEvent := fun event t =>
    match event with
    | obs_frontend_event.OBS_FRONTEND_EVENT_EXIT =>
      { t with conf := t.conf.filter (fun kv => decide (kv.1 ≠ "transient")) }
    | _ => t

mutual
/-- The compact JSON text of a value; strings are written without escapes and
a number as the decimal of its bit pattern. -/
def toJson : QJsonValue → List Char
  | .null => ['n', 'u', 'l', 'l']
  | .bool b => if b then ['t', 'r', 'u', 'e'] else ['f', 'a', 'l', 's', 'e']
  | .double bits => (Nat.repr bits).data
  | .string s => '"' :: s.data ++ ['"']
  | .array a => '[' :: toJsonArray a ++ [']']
  | .object o => '\x7b' :: toJsonMembers o ++ ['\x7d']
/-- The text of the entries of an array, separated by commas. -/
def toJsonArray : List QJsonValue → List Char
  | [] => []
  | x :: xs =>
    toJson x ++
      (match xs with
       | [] => []
       | _ :: _ => ',' :: toJsonArray xs)
/-- The text of the members of an object, separated by commas. -/
def toJsonMembers : List (String × QJsonValue) → List Char
  | [] => []
  | (k, v) :: rest =>
    '"' :: k.data ++ '"' :: ':' :: toJson v ++
      (match rest with
       | [] => []
       | _ :: _ => ',' :: toJsonMembers rest)
end

/-- The text an example document is stored as: its compact JSON text, the
empty string for the null document. -/
def encode : QJsonDocument → String
  | .null => ""
  | .ofArray a => String.mk (toJson (QJsonValue.array a))
  | .ofObject o => String.mk (toJson (QJsonValue.object o))

/-- An example codec.  It writes a document as `encode` does and reads a
string as the first of the documents `known` that is written so, as the null
document when there is none. -/
def codec (known : List QJsonDocument) : QtCodec where
  toBase64Json := encode
  fromBase64Json := fun str =>
    match known.find? (fun d => decide (encode d = str)) with
    | some d => d
    | none => QJsonDocument.null

/-- The configuration `{"endpoint": url}`. -/
def endpoint (url : String) : QJsonObject :=
  [("endpoint", QJsonValue.string url)]

/-- A configuration file without any value. -/
def emptyConfig : config_t :=
  { values := [], file := [] }

/-- A configuration file that holds `value` under the key of the plugin. -/
def configWith (value : String) : config_t :=
  { values := [((ConfigSection, "json"), value)],
    file := [((ConfigSection, "json"), value)] }

/-- The children a fresh dock widget has: the layout, the button for a new
target and the container of the two other buttons, none of them named. -/
def plainChildren : List (QObject Target) :=
  [{ ptr := 0, objectName := "", pushWidget := none },
   { ptr := 1, objectName := "", pushWidget := none },
   { ptr := 2, objectName := "", pushWidget := none }]

/-- A dock widget whose targets have the given configurations, with empty
configuration files. -/
def stateOf (confs : List QJsonObject) : State Target :=
  { children := plainChildren ++ newWidgets (impl true) 3 confs,
    fresh := 3 + confs.length,
    profile_config := emptyConfig,
    global_config := emptyConfig,
    calls := [] }

/-- The dock widget of `stateOf confs` when the profile store holds `value`
under the key of the plugin. -/
def stateWithProfile (confs : List QJsonObject) (value : String) : State Target :=
  { stateOf confs with profile_config := configWith value }

/-- The dock widget of `stateOf confs` when only the legacy global store
holds `value` under the key of the plugin. -/
def stateWithGlobal (confs : List QJsonObject) (value : String) : State Target :=
  { stateOf confs with global_config := configWith value }

/-- A configuration object whose array of targets holds one object and one
entry that is not an object. -/
def mixedConf : QJsonObject :=
  [("targets", QJsonValue.array [QJsonValue.object (endpoint "a"), QJsonValue.string "oops"])]

/-- A configuration object with two targets. -/
def twoConf : QJsonObject :=
  [("targets", QJsonValue.array [QJsonValue.object (endpoint "a"), QJsonValue.object (endpoint "b")])]

/-- The configuration of endpoint `a` with one more member, `transient`. -/
def transientConf : QJsonObject :=
  [("endpoint", QJsonValue.string "a"), ("transient", QJsonValue.string "x")]

end Example

/-! ## Lemmas on the enumeration and on the loops -/

theorem GetAllPushWidgets_loop_eq (cs : List (QObject W)) (result : List (Option Nat)) :
    GetAllPushWidgets.loop cs result =
      result ++ (cs.filter (fun c => decide (c.objectName = "push-widget"))).map dynamic_cast := by
  induction cs generalizing result with
  | nil => simp [GetAllPushWidgets.loop]
  | cons c rest ih =>
    by_cases h : c.objectName = "push-widget"
    · simp [GetAllPushWidgets.loop, h, ih]
    · simp [GetAllPushWidgets.loop, h, ih]

theorem GetAllPushWidgets_eq (s : State W) :
    GetAllPushWidgets s =
      (s.children.filter (fun c => decide (c.objectName = "push-widget"))).map dynamic_cast := by
  simp [GetAllPushWidgets, GetAllPushWidgets_loop_eq]

/-- The push widgets of a list of children. -/
theorem registry_children_eq (cs : List (QObject W))
    (h : ∀ c ∈ cs, c.objectName = "push-widget" → c.pushWidget.isSome = true) :
    (cs.filter (fun c => decide (c.objectName = "push-widget"))).map dynamic_cast =
      (cs.filterMap (fun c =>
        if c.objectName = "push-widget" then c.pushWidget.map (fun st => (c.ptr, st))
        else none)).map (fun r => some r.1) := by
  induction cs with
  | nil => simp
  | cons c rest ih =>
    have ih1 := ih (fun c hc => h c (List.mem_cons_of_mem _ hc))
    by_cases hn : c.objectName = "push-widget"
    · have hs := h c (List.mem_cons_self _ _) hn
      obtain ⟨st, hst⟩ := Option.isSome_iff_exists.mp hs
      simp [List.filter_cons, List.filterMap_cons, hn, hst, dynamic_cast, ih1]
    · simp [List.filter_cons, List.filterMap_cons, hn, ih1]

theorem GetAllPushWidgets_registry (s : State W) (h : WellFormed s) :
    GetAllPushWidgets s = (registry s).map (fun r => some r.1) := by
  rw [GetAllPushWidgets_eq, registry_children_eq _ h.isPush, registry]

theorem ptr_injOn (cs : List (QObject W)) (hnd : (cs.map QObject.ptr).Nodup)
    {a b : QObject W} (ha : a ∈ cs) (hb : b ∈ cs) (hab : a.ptr = b.ptr) : a = b :=
  List.inj_on_of_nodup_map hnd ha hb hab

theorem find_ptr (cs : List (QObject W)) (hnd : (cs.map QObject.ptr).Nodup)
    {c : QObject W} (hc : c ∈ cs) :
    cs.find? (fun c1 => decide (c1.ptr = c.ptr)) = some c := by
  induction cs with
  | nil => simp at hc
  | cons a rest ih =>
    by_cases hac : a.ptr = c.ptr
    · have : a = c := ptr_injOn _ hnd (List.mem_cons_self _ _) hc hac
      simp [List.find?_cons, this]
    · have hc1 : c ∈ rest := by
        rcases List.mem_cons.mp hc with h | h
        · exact absurd (by rw [h]) hac
        · exact h
      have hnd1 : (rest.map QObject.ptr).Nodup := by
        simp only [List.map_cons, List.nodup_cons] at hnd
        exact hnd.2
      simp [List.find?_cons, hac, ih hnd1 hc1]

theorem deref_of_mem (s : State W) (hnd : (s.children.map QObject.ptr).Nodup)
    {c : QObject W} (hc : c ∈ s.children) :
    deref s (some c.ptr) = c.pushWidget := by
  simp [deref, find_ptr _ hnd hc]

theorem forEach_ptrs (f : W → W) (call : Nat → Call) (ps : List Nat) :
    ∀ s : State W, (s.children.map QObject.ptr).Nodup → ps.Nodup →
      (∀ p ∈ ps, ∃ c ∈ s.children, c.ptr = p ∧ c.pushWidget.isSome = true) →
      forEach f call (ps.map some) s =
        some { s with
          children := s.children.map (fun c => if c.ptr ∈ ps then c.update f else c),
          calls := s.calls ++ ps.map call } := by
  induction ps with
  | nil => intro s _ _ _; simp [forEach]
  | cons p ps ih =>
    intro s hnd hps hex
    obtain ⟨c, hc, hcp, hsome⟩ := hex p (List.mem_cons_self _ _)
    obtain ⟨st, hst⟩ := Option.isSome_iff_exists.mp hsome
    have hd : deref s (some p) = some st := by
      rw [← hcp, deref_of_mem s hnd hc, hst]
    have hpn : p ∉ ps := (List.nodup_cons.mp hps).1
    have hps1 : ps.Nodup := (List.nodup_cons.mp hps).2
    simp only [List.map_cons, forEach, invoke, hd]
    rw [ih]
    · simp only [assignAt, List.map_map, List.append_assoc, List.singleton_append]
      congr 2
      apply List.map_congr_left
      intro a ha
      by_cases hap : a.ptr = p
      · have hac : a = c := ptr_injOn _ hnd ha hc (hap.trans hcp.symm)
        subst hac
        simp [hap, hpn, QObject.update, hst]
      · simp [hap]
    · simpa [assignAt, List.map_map, Function.comp_def, apply_ite QObject.ptr] using hnd
    · exact hps1
    · intro q hq
      obtain ⟨d, hd1, hd2, hd3⟩ := hex q (List.mem_cons_of_mem _ hq)
      refine ⟨if d.ptr = p then { d with pushWidget := some (f st) } else d, ?_, ?_, ?_⟩
      · simp only [assignAt]
        exact List.mem_map.mpr ⟨d, hd1, rfl⟩
      · split <;> simp [hd2]
      · split <;> simp [hd3]

theorem mem_registry (s : State W) (p : Nat) (st : W) :
    (p, st) ∈ registry s ↔
      ∃ c ∈ s.children, c.objectName = "push-widget" ∧ c.pushWidget = some st ∧ c.ptr = p := by
  simp only [registry, List.mem_filterMap]
  constructor
  · rintro ⟨c, hc, h⟩
    by_cases hn : c.objectName = "push-widget"
    · simp only [hn, if_true, Option.map_eq_some'] at h
      obtain ⟨a, ha, hpa⟩ := h
      simp only [Prod.mk.injEq] at hpa
      exact ⟨c, hc, hn, by rw [ha, hpa.2], hpa.1⟩
    · simp [hn] at h
  · rintro ⟨c, hc, hn, hst, hp⟩
    exact ⟨c, hc, by simp [hn, hst, hp]⟩

theorem registry_fst_sublist (cs : List (QObject W)) :
    ((cs.filterMap (fun c =>
        if c.objectName = "push-widget" then c.pushWidget.map (fun st => (c.ptr, st))
        else none)).map Prod.fst).Sublist (cs.map QObject.ptr) := by
  induction cs with
  | nil => simp
  | cons c rest ih =>
    rw [List.filterMap_cons]
    by_cases hn : c.objectName = "push-widget"
    · cases hst : c.pushWidget with
      | none => simpa [hn, hst] using ih.cons c.ptr
      | some st => simpa [hn, hst] using ih.cons₂ c.ptr
    · simpa [hn] using ih.cons c.ptr

theorem registry_fst_nodup (s : State W) (h : WellFormed s) :
    ((registry s).map Prod.fst).Nodup :=
  (registry_fst_sublist s.children).nodup h.nodup

theorem deref_registry (s : State W) (h : WellFormed s) (r : Nat × W) (hr : r ∈ registry s) :
    deref s (some r.1) = some r.2 := by
  obtain ⟨c, hc, _, hst, hp⟩ := (mem_registry s r.1 r.2).mp hr
  rw [← hp, deref_of_mem s h.nodup hc, hst]

theorem mem_registry_fst_iff (s : State W) (h : WellFormed s) (c : QObject W)
    (hc : c ∈ s.children) :
    c.ptr ∈ (registry s).map Prod.fst ↔ c.objectName = "push-widget" := by
  constructor
  · intro hm
    obtain ⟨r, hr, hrp⟩ := List.mem_map.mp hm
    obtain ⟨d, hd, hn, _, hp⟩ := (mem_registry s r.1 r.2).mp hr
    have : d = c := ptr_injOn _ h.nodup hd hc (hp.trans hrp)
    rw [← this]; exact hn
  · intro hn
    obtain ⟨st, hst⟩ := Option.isSome_iff_exists.mp (h.isPush c hc hn)
    exact List.mem_map.mpr ⟨(c.ptr, st), (mem_registry s c.ptr st).mpr ⟨c, hc, hn, hst, rfl⟩, rfl⟩

theorem forEach_GetAllPushWidgets (f : W → W) (call : Nat → Call) (s : State W)
    (h : WellFormed s) :
    forEach f call (GetAllPushWidgets s) s = some (s.afterEach f call) := by
  have e : GetAllPushWidgets s = ((registry s).map Prod.fst).map some := by
    rw [GetAllPushWidgets_registry s h, List.map_map]; rfl
  rw [e, forEach_ptrs f call _ s h.nodup (registry_fst_nodup s h)]
  · simp only [State.afterEach, List.map_map]
    congr 2
    apply List.map_congr_left
    intro c hc
    simp only [mem_registry_fst_iff s h c hc]
  · intro p hp
    obtain ⟨r, hr, hrp⟩ := List.mem_map.mp hp
    obtain ⟨c, hc, _, hst, hcp⟩ := (mem_registry s r.1 r.2).mp hr
    exact ⟨c, hc, hcp.trans hrp, by simp [hst]⟩

theorem registry_afterEach (f : W → W) (call : Nat → Call) (s : State W) :
    registry (s.afterEach f call) = (registry s).map (fun r => (r.1, f r.2)) := by
  simp only [registry, State.afterEach]
  induction s.children with
  | nil => simp
  | cons c rest ih =>
    rw [List.map_cons, List.filterMap_cons, List.filterMap_cons, ih]
    by_cases hn : c.objectName = "push-widget"
    · cases hst : c.pushWidget with
      | none => simp [hn, hst, QObject.update]
      | some st => simp [hn, hst, QObject.update]
    · simp [hn]

theorem wellFormed_afterEach (f : W → W) (call : Nat → Call) (s : State W)
    (h : WellFormed s) : WellFormed (s.afterEach f call) := by
  refine ⟨?_, ?_, ?_⟩
  · have : (s.afterEach f call).children.map QObject.ptr = s.children.map QObject.ptr := by
      simp only [State.afterEach, List.map_map]
      apply List.map_congr_left
      intro c _
      by_cases hn : c.objectName = "push-widget" <;> simp [hn, QObject.update]
    rw [this]; exact h.nodup
  · intro c hc
    simp only [State.afterEach, List.mem_map] at hc
    obtain ⟨d, hd, rfl⟩ := hc
    have := h.below d hd
    by_cases hn : d.objectName = "push-widget" <;> simpa [hn, QObject.update, State.afterEach] using this
  · intro c hc hn
    simp only [State.afterEach, List.mem_map] at hc
    obtain ⟨d, hd, rfl⟩ := hc
    by_cases hdn : d.objectName = "push-widget"
    · have := h.isPush d hd hdn
      obtain ⟨st, hst⟩ := Option.isSome_iff_exists.mp this
      simp [hdn, QObject.update, hst]
    · simp [hdn] at hn
theorem SaveConfig_loop_eq (M : PushWidgetImpl W) (s : State W) (rs : List (Nat × W))
    (hr : ∀ r ∈ rs, deref s (some r.1) = some r.2) (acc : QJsonArray) :
    SaveConfig.loop M s (rs.map (fun r => some r.1)) acc =
      some (acc ++ rs.map (fun r => QJsonValue.object (M.Config r.2))) := by
  induction rs generalizing acc with
  | nil => simp [SaveConfig.loop]
  | cons r rest ih =>
    have h1 := hr r (List.mem_cons_self _ _)
    simp only [List.map_cons, SaveConfig.loop, h1]
    rw [ih (fun r hr1 => hr r (List.mem_cons_of_mem _ hr1))]
    simp

theorem SaveConfig_eq (M : PushWidgetImpl W) (E : QtCodec) (s : State W) (h : WellFormed s) :
    SaveConfig M E s =
      some (s.afterSave (E.toBase64Json (documentOf ((registry s).map (fun r => M.Config r.2))))) := by
  simp only [SaveConfig, GetAllPushWidgets_registry s h]
  rw [SaveConfig_loop_eq M s (registry s) (deref_registry s h) []]
  simp [State.afterSave, documentOf, QJsonObject.assign, QJsonDocument.setObject, List.map_map,
    Function.comp_def]

theorem stored_afterSave (value : String) (s : State W) :
    stored (s.afterSave value).profile_config = some value := by
  simp [stored, State.afterSave, config_get_string, config_save_safe, config_set_string]

theorem deleteLoop_eq (xs : List (Option Nat)) (s : State W) :
    LoadConfig.deleteLoop xs s =
      { s with children := s.children.filter (fun c => decide (some c.ptr ∉ xs)) } := by
  induction xs generalizing s with
  | nil => simp [LoadConfig.deleteLoop]
  | cons x rest ih =>
    rw [LoadConfig.deleteLoop, ih]
    cases x with
    | none => simp [delete]
    | some p =>
      simp only [delete, List.filter_filter, List.mem_cons, Option.some.injEq]
      congr 1
      apply List.filter_congr
      intro c _
      by_cases hp : c.ptr = p <;> simp [hp]

theorem deleteLoop_GetAllPushWidgets (s : State W) (h : WellFormed s) :
    LoadConfig.deleteLoop (GetAllPushWidgets s) s =
      { s with children := s.children.filter (fun c => decide (c.objectName ≠ "push-widget")) } := by
  rw [deleteLoop_eq]
  congr 1
  apply List.filter_congr
  intro c hc
  have e : some c.ptr ∈ GetAllPushWidgets s ↔ c.ptr ∈ (registry s).map Prod.fst := by
    rw [GetAllPushWidgets_registry s h]
    simp
  simp only [e, mem_registry_fst_iff s h c hc]

theorem createLoop_eq (M : PushWidgetImpl W) (xs : QJsonArray) (s : State W) :
    LoadConfig.createLoop M xs s =
      { s with
        children := s.children ++ newWidgets M s.fresh (xs.filterMap QJsonValue.asObject),
        fresh := s.fresh + (xs.filterMap QJsonValue.asObject).length } := by
  induction xs generalizing s with
  | nil => simp [LoadConfig.createLoop, newWidgets]
  | cons x rest ih =>
    cases x <;>
      simp [LoadConfig.createLoop, QJsonValue.isObject, QJsonValue.asObject, ih,
        createPushWidget, QJsonValue.toObject, newWidgets, Nat.add_assoc, Nat.add_comm 1]

theorem LoadConfig.fromString_object (M : PushWidgetImpl W) (E : QtCodec) (s : State W)
    (h : WellFormed s) (str : String) (hne : str ≠ "") (conf : QJsonObject)
    (hdec : E.fromBase64Json str = QJsonDocument.ofObject conf) :
    LoadConfig.fromString M E (some str) s = s.afterLoad M conf := by
  simp only [LoadConfig.fromString, hne, if_false, hdec, QJsonDocument.isObject,
    QJsonDocument.object, if_true, deleteLoop_GetAllPushWidgets s h, State.afterLoad,
    targetObjects]
  cases hf : QJsonObject.find conf "targets" with
  | none => simp [newWidgets]
  | some t =>
    cases t <;> simp [QJsonValue.isArray, newWidgets, QJsonValue.toArray, createLoop_eq]

theorem LoadConfig.fromString_failed (M : PushWidgetImpl W) (E : QtCodec) (s : State W)
    (base64str : Option String)
    (hfail : base64str = none ∨ base64str = some "" ∨
      ∃ str, base64str = some str ∧ (E.fromBase64Json str).isObject = false) :
    LoadConfig.fromString M E base64str s = s := by
  rcases hfail with h | h | ⟨str, h, hobj⟩
  · simp [LoadConfig.fromString, h, QJsonObject.find]
  · simp [LoadConfig.fromString, h, QJsonObject.find]
  · by_cases hne : str = ""
    · simp [LoadConfig.fromString, h, hne, QJsonObject.find]
    · simp [LoadConfig.fromString, h, hne, hobj, QJsonObject.find]
theorem newWidgets_ptr (M : PushWidgetImpl W) (start : Nat) (os : List QJsonObject) :
    (newWidgets M start os).map QObject.ptr = List.range' start os.length := by
  induction os generalizing start with
  | nil => simp [newWidgets]
  | cons o rest ih => simp [newWidgets, ih, List.range'_succ]

theorem mem_newWidgets (M : PushWidgetImpl W) (start : Nat) (os : List QJsonObject)
    (c : QObject W) (hc : c ∈ newWidgets M start os) :
    c.objectName = "push-widget" ∧ c.pushWidget.isSome = true ∧
      start ≤ c.ptr ∧ c.ptr < start + os.length := by
  induction os generalizing start with
  | nil => simp [newWidgets] at hc
  | cons o rest ih =>
    simp only [newWidgets, List.mem_cons] at hc
    rcases hc with h | h
    · subst h; simp
    · obtain ⟨h1, h2, h3, h4⟩ := ih (start + 1) h
      refine ⟨h1, h2, by omega, by simp only [List.length_cons]; omega⟩

theorem filterMap_newWidgets (M : PushWidgetImpl W) (start : Nat) (os : List QJsonObject) :
    (newWidgets M start os).filterMap (fun c =>
        if c.objectName = "push-widget" then c.pushWidget.map (fun st => (c.ptr, st))
        else none) =
      (List.range' start os.length).zip (os.map M.create) := by
  induction os generalizing start with
  | nil => simp [newWidgets]
  | cons o rest ih => simp [newWidgets, ih, List.range'_succ]

theorem filterMap_filter_unnamed (cs : List (QObject W)) :
    (cs.filter (fun c => decide (c.objectName ≠ "push-widget"))).filterMap (fun c =>
        if c.objectName = "push-widget" then c.pushWidget.map (fun st => (c.ptr, st))
        else none) = [] := by
  induction cs with
  | nil => simp
  | cons c rest ih =>
    by_cases hn : c.objectName = "push-widget"
    · simpa [List.filter_cons, hn] using ih
    · simpa [List.filter_cons, hn] using ih

theorem registry_afterLoad (M : PushWidgetImpl W) (conf : QJsonObject) (s : State W) :
    registry (s.afterLoad M conf) =
      (List.range' s.fresh (targetObjects conf).length).zip ((targetObjects conf).map M.create) := by
  simp only [registry, State.afterLoad, List.filterMap_append, filterMap_filter_unnamed,
    filterMap_newWidgets, List.nil_append]

theorem registry_afterLoad_fst (M : PushWidgetImpl W) (conf : QJsonObject) (s : State W) :
    (registry (s.afterLoad M conf)).map Prod.fst =
      List.range' s.fresh (targetObjects conf).length := by
  rw [registry_afterLoad, List.map_fst_zip]
  simp

theorem registry_afterLoad_snd (M : PushWidgetImpl W) (conf : QJsonObject) (s : State W) :
    (registry (s.afterLoad M conf)).map Prod.snd = (targetObjects conf).map M.create := by
  rw [registry_afterLoad, List.map_snd_zip]
  simp

theorem wellFormed_afterLoad (M : PushWidgetImpl W) (conf : QJsonObject) (s : State W)
    (h : WellFormed s) : WellFormed (s.afterLoad M conf) := by
  refine ⟨?_, ?_, ?_⟩
  · simp only [State.afterLoad, List.map_append, newWidgets_ptr]
    rw [List.nodup_append]
    refine ⟨(List.Sublist.map _ (List.filter_sublist _)).nodup h.nodup, List.nodup_range' _ _, ?_⟩
    intro p hp hq
    obtain ⟨c, hc, rfl⟩ := List.mem_map.mp hp
    have := h.below c (List.mem_of_mem_filter hc)
    have := (List.mem_range'_1.mp hq).1
    omega
  · intro c hc
    simp only [State.afterLoad, List.mem_append] at hc ⊢
    rcases hc with hc | hc
    · have := h.below c (List.mem_of_mem_filter hc)
      omega
    · exact (mem_newWidgets M _ _ c hc).2.2.2
  · intro c hc hn
    simp only [State.afterLoad, List.mem_append] at hc
    rcases hc with hc | hc
    · have := (List.mem_filter.mp hc).2
      simp [hn] at this
    · exact (mem_newWidgets M _ _ c hc).2.1

theorem wellFormed_afterSave (value : String) (s : State W) (h : WellFormed s) :
    WellFormed (s.afterSave value) :=
  ⟨h.nodup, h.below, h.isPush⟩

theorem registry_afterSave (value : String) (s : State W) :
    registry (s.afterSave value) = registry s := rfl

theorem base64str_of_stored (s : State W) (str : String)
    (hs : stored s.profile_config = some str) (hne : str ≠ "") :
    LoadConfig.base64str s = some str := by
  simp only [stored] at hs
  simp [LoadConfig.base64str, hs, hne]

theorem base64str_of_missing (s : State W)
    (hs : stored s.profile_config = none ∨ stored s.profile_config = some "") :
    LoadConfig.base64str s = stored s.global_config := by
  simp only [stored] at hs ⊢
  rcases hs with hs | hs <;> simp [LoadConfig.base64str, hs]

theorem filterMap_asObject_map (confs : List QJsonObject) :
    (confs.map QJsonValue.object).filterMap QJsonValue.asObject = confs := by
  induction confs with
  | nil => rfl
  | cons c rest ih => simp [QJsonValue.asObject, ih]

theorem targetObjects_documentOf (confs : List QJsonObject) :
    targetObjects [("targets", QJsonValue.array (confs.map QJsonValue.object))] = confs := by
  simp only [targetObjects, QJsonObject.find, if_true]
  exact filterMap_asObject_map confs

theorem config_set_string_twice (config : config_t) (sec name value : String) :
    config_save_safe (config_set_string
        (config_save_safe (config_set_string config sec name value)) sec name value) =
      config_save_safe (config_set_string config sec name value) := by
  simp [config_save_safe, config_set_string, List.filter_filter]

theorem Example.wellFormed_stateOf_two :
    WellFormed (Example.stateOf [Example.endpoint "a", Example.endpoint "b"]) := by
  decide
theorem find_ptr_append_new (cs : List (QObject W)) (n : QObject W)
    (hold : ∀ c ∈ cs, c.ptr ≠ n.ptr) :
    (cs ++ [n]).find? (fun c => decide (c.ptr = n.ptr)) = some n := by
  induction cs with
  | nil => simp
  | cons c rest ih =>
    have hc := hold c (List.mem_cons_self _ _)
    simp only [List.cons_append, List.find?_cons, hc, decide_False]
    exact ih (fun d hd => hold d (List.mem_cons_of_mem _ hd))

theorem map_assign_old (cs : List (QObject W)) (p : Nat) (g : QObject W → QObject W)
    (hold : ∀ c ∈ cs, c.ptr ≠ p) :
    cs.map (fun c => if c.ptr = p then g c else c) = cs := by
  induction cs with
  | nil => rfl
  | cons c rest ih =>
    have hc := hold c (List.mem_cons_self _ _)
    simp only [List.map_cons, hc, if_false]
    rw [ih (fun d hd => hold d (List.mem_cons_of_mem _ hd))]

theorem filter_ptr_old (cs : List (QObject W)) (p : Nat) (hold : ∀ c ∈ cs, c.ptr ≠ p) :
    cs.filter (fun c => decide (c.ptr ≠ p)) = cs := by
  apply List.filter_eq_self.mpr
  intro c hc
  simpa using hold c hc

theorem fresh_ne (s : State W) (h : WellFormed s) : ∀ c ∈ s.children, c.ptr ≠ s.fresh :=
  fun c hc => Nat.ne_of_lt (h.below c hc)

theorem ShowEditDlg_created (M : PushWidgetImpl W) (s : State W) (h : WellFormed s) :
    ShowEditDlg M (some (addButton_clicked.created M s).1) (addButton_clicked.created M s).2 =
      some ((M.ShowEditDlg (M.create [])).1, s.afterDialog M) := by
  have hd : deref (createPushWidget M [] s).2 (some s.fresh) = some (M.create []) := by
    simp only [deref, createPushWidget]
    rw [find_ptr_append_new s.children
      { ptr := s.fresh, objectName := "push-widget", pushWidget := some (M.create []) }
      (fresh_ne s h)]
    rfl
  simp only [addButton_clicked.created, ShowEditDlg]
  show (match deref (createPushWidget M [] s).2 (some s.fresh) with
    | none => none
    | some st => some ((M.ShowEditDlg st).1,
        { assignAt (createPushWidget M [] s).2 s.fresh (M.ShowEditDlg st).2 with
          calls := (createPushWidget M [] s).2.calls ++ [Call.ShowEditDlg s.fresh] })) = _
  rw [hd]
  simp only [assignAt, createPushWidget, State.afterDialog, List.map_append,
    map_assign_old s.children s.fresh _ (fresh_ne s h)]
  simp

theorem wellFormed_afterDialog (M : PushWidgetImpl W) (s : State W) (h : WellFormed s) :
    WellFormed (s.afterDialog M) := by
  refine ⟨?_, ?_, ?_⟩
  · simp only [State.afterDialog, List.map_append, List.map_cons, List.map_nil]
    rw [List.nodup_append]
    refine ⟨h.nodup, List.nodup_singleton _, ?_⟩
    intro p hp hq
    obtain ⟨c, hc, rfl⟩ := List.mem_map.mp hp
    have := h.below c hc
    simp only [List.mem_singleton] at hq
    omega
  · intro c hc
    simp only [State.afterDialog, List.mem_append, List.mem_singleton] at hc ⊢
    rcases hc with hc | hc
    · have := h.below c hc
      omega
    · subst hc; simp
  · intro c hc hn
    simp only [State.afterDialog, List.mem_append, List.mem_singleton] at hc
    rcases hc with hc | hc
    · exact h.isPush c hc hn
    · subst hc; rfl

theorem registry_afterDialog (M : PushWidgetImpl W) (s : State W) :
    registry (s.afterDialog M) = registry s ++ [(s.fresh, (M.ShowEditDlg (M.create [])).2)] := by
  simp [registry, State.afterDialog, List.filterMap_append]

theorem addButton_clicked_confirmed (M : PushWidgetImpl W) (E : QtCodec) (s : State W)
    (h : WellFormed s) (hok : (M.ShowEditDlg (M.create [])).1 = true) :
    addButton_clicked M E s =
      some ((s.afterDialog M).afterSave (E.toBase64Json (documentOf
        ((registry s).map (fun r => M.Config r.2) ++
          [M.Config (M.ShowEditDlg (M.create [])).2])))) := by
  rw [addButton_clicked, ShowEditDlg_created M s h, hok]
  simp only
  rw [SaveConfig_eq M E _ (wellFormed_afterDialog M s h), registry_afterDialog]
  simp

theorem addButton_clicked_cancelled (M : PushWidgetImpl W) (E : QtCodec) (s : State W)
    (h : WellFormed s) (hno : (M.ShowEditDlg (M.create [])).1 = false) :
    addButton_clicked M E s =
      some { s with fresh := s.fresh + 1, calls := s.calls ++ [Call.ShowEditDlg s.fresh] } := by
  rw [addButton_clicked, ShowEditDlg_created M s h, hno]
  simp only [addButton_clicked.created, createPushWidget, delete, State.afterDialog,
    List.filter_append, filter_ptr_old s.children s.fresh (fresh_ne s h)]
  simp

/-! ## Properties of the operations -/

theorem length_filterMap_asObject (a : QJsonArray) :
    (a.filterMap QJsonValue.asObject).length = a.countP QJsonValue.isObject := by
  induction a with
  | nil => rfl
  | cons x rest ih =>
    cases x <;> simp [List.filterMap_cons, QJsonValue.asObject, QJsonValue.isObject, ih]

theorem LoadConfig_object (M : PushWidgetImpl W) (E : QtCodec) (s : State W)
    (h : WellFormed s) (str : String) (conf : QJsonObject)
    (hstr : LoadConfig.base64str s = some str) (hne : str ≠ "")
    (hdec : E.fromBase64Json str = QJsonDocument.ofObject conf) :
    LoadConfig M E s = s.afterLoad M conf := by
  rw [LoadConfig, hstr]
  exact LoadConfig.fromString_object M E s h str hne conf hdec

theorem GetAllPushWidgets_lt (s : State W) (h : WellFormed s) (x : Option Nat)
    (hx : x ∈ GetAllPushWidgets s) : ∃ p, x = some p ∧ p < s.fresh := by
  rw [GetAllPushWidgets_registry s h] at hx
  obtain ⟨r, hr, rfl⟩ := List.mem_map.mp hx
  obtain ⟨c, hc, _, _, hp⟩ := (mem_registry s r.1 r.2).mp hr
  exact ⟨r.1, rfl, hp ▸ h.below c hc⟩

theorem GetAllPushWidgets_afterLoad (M : PushWidgetImpl W) (conf : QJsonObject) (s : State W)
    (h : WellFormed s) :
    GetAllPushWidgets (s.afterLoad M conf) =
      (List.range' s.fresh (targetObjects conf).length).map some := by
  rw [GetAllPushWidgets_registry _ (wellFormed_afterLoad M conf s h)]
  have e : (fun r : Nat × W => some r.1) = some ∘ Prod.fst := rfl
  rw [e, ← List.map_map, registry_afterLoad_fst]

/-- C1: for every well-formed state, when a widget created from a
configuration reports that configuration and the document that `SaveConfig`
writes is a non-empty string that decodes to the same document, `SaveConfig`
stores the document of the targets' configurations; and `LoadConfig` on any
well-formed registry whose profile store holds that value, a fresh one
included, deletes the widgets of that registry and rebuilds, at fresh
addresses, newly created targets with the same configurations in the same
order, after which `SaveConfig` stores the same string again, and leaves the
same profile store when it started from the same one. -/
theorem SaveConfig_LoadConfig_roundtrip (M : PushWidgetImpl W) (E : QtCodec) (s : State W)
    (h : WellFormed s)
    (hConfig : ∀ conf, M.Config (M.create conf) = conf)
    (hdecode : E.fromBase64Json
        (E.toBase64Json (documentOf ((registry s).map (fun r => M.Config r.2)))) =
      documentOf ((registry s).map (fun r => M.Config r.2)))
    (hnonempty : E.toBase64Json (documentOf ((registry s).map (fun r => M.Config r.2))) ≠ "") :
    ∃ s1, SaveConfig M E s = some s1 ∧
      stored s1.profile_config =
        some (E.toBase64Json (documentOf ((registry s).map (fun r => M.Config r.2)))) ∧
      WellFormed s1 ∧
      ∀ t : State W, WellFormed t → stored t.profile_config = stored s1.profile_config →
        (∀ x ∈ GetAllPushWidgets t, x ∉ GetAllPushWidgets (LoadConfig M E t)) ∧
        registry (LoadConfig M E t) =
          (List.range' t.fresh (registry s).length).zip
            ((registry s).map (fun r => M.create (M.Config r.2))) ∧
        (registry (LoadConfig M E t)).map (fun r => M.Config r.2) =
          (registry s).map (fun r => M.Config r.2) ∧
        ∃ s3, SaveConfig M E (LoadConfig M E t) = some s3 ∧
          stored s3.profile_config = stored s1.profile_config ∧
          (t.profile_config = s1.profile_config → s3.profile_config = s1.profile_config) := by
  refine ⟨_, SaveConfig_eq M E s h, stored_afterSave _ s, wellFormed_afterSave _ s h, ?_⟩
  intro t ht hst
  rw [stored_afterSave] at hst
  have hload : LoadConfig M E t =
      t.afterLoad M [("targets", QJsonValue.array
        (((registry s).map (fun r => M.Config r.2)).map QJsonValue.object))] :=
    LoadConfig_object M E t ht _ _ (base64str_of_stored t _ hst hnonempty) hnonempty hdecode
  have hwf : WellFormed (LoadConfig M E t) := by
    rw [hload]; exact wellFormed_afterLoad M _ t ht
  have hregs : registry (LoadConfig M E t) =
      (List.range' t.fresh (registry s).length).zip
        ((registry s).map (fun r => M.create (M.Config r.2))) := by
    rw [hload, registry_afterLoad, targetObjects_documentOf]
    simp [List.map_map, Function.comp_def]
  have hreg : (registry (LoadConfig M E t)).map (fun r => M.Config r.2) =
      (registry s).map (fun r => M.Config r.2) := by
    have e : (fun r : Nat × W => M.Config r.2) = (fun st => M.Config st) ∘ Prod.snd := rfl
    rw [hload, e, ← List.map_map, registry_afterLoad_snd, targetObjects_documentOf, List.map_map]
    simp [Function.comp_def, hConfig]
  refine ⟨?_, hregs, hreg, _, SaveConfig_eq M E _ hwf, ?_, ?_⟩
  · intro x hx hx1
    obtain ⟨p, rfl, hp⟩ := GetAllPushWidgets_lt t ht x hx
    rw [hload, GetAllPushWidgets_afterLoad M _ t ht] at hx1
    obtain ⟨q, hq, hqp⟩ := List.mem_map.mp hx1
    have : q = p := Option.some.inj hqp
    have := (List.mem_range'_1.mp hq).1
    omega
  · rw [hreg, stored_afterSave, stored_afterSave]
  · intro hprof
    rw [hreg, hload]
    show config_save_safe (config_set_string t.profile_config ConfigSection "json" _) = _
    rw [hprof]
    exact config_set_string_twice _ _ _ _

theorem Example.wellFormed_stateOf_nil : WellFormed (Example.stateOf []) := by
  decide

theorem Example.wellFormed_stateWithProfile_nil (value : String) :
    WellFormed (Example.stateWithProfile [] value) :=
  ⟨Example.wellFormed_stateOf_nil.nodup, Example.wellFormed_stateOf_nil.below,
    Example.wellFormed_stateOf_nil.isPush⟩

/-- A concrete run of the round trip: two targets with the endpoints `a` and
`b` are saved with the example codec that knows the document of these two;
loading the stored value into a fresh dock widget, which has no target,
gives two new targets with these endpoints, and saving that one stores the
same value. -/
theorem SaveConfig_LoadConfig_roundtrip_witness :
    WellFormed (Example.stateOf [Example.endpoint "a", Example.endpoint "b"]) ∧
    (registry (Example.stateOf [Example.endpoint "a", Example.endpoint "b"])).map
        (fun r => (Example.impl true).Config r.2) = [Example.endpoint "a", Example.endpoint "b"] ∧
    registry (Example.stateWithProfile []
        (Example.encode (QJsonDocument.ofObject Example.twoConf))) = [] ∧
    ∃ s1,
      SaveConfig (Example.impl true) (Example.codec [QJsonDocument.ofObject Example.twoConf])
          (Example.stateOf [Example.endpoint "a", Example.endpoint "b"]) = some s1 ∧
      stored s1.profile_config =
        some (Example.encode (QJsonDocument.ofObject Example.twoConf)) ∧
      registry (LoadConfig (Example.impl true)
          (Example.codec [QJsonDocument.ofObject Example.twoConf])
          (Example.stateWithProfile []
            (Example.encode (QJsonDocument.ofObject Example.twoConf)))) =
        [(3, { conf := Example.endpoint "a", status := Example.Status.Idle }),
         (4, { conf := Example.endpoint "b", status := Example.Status.Idle })] ∧
      ∃ s3,
        SaveConfig (Example.impl true) (Example.codec [QJsonDocument.ofObject Example.twoConf])
          (LoadConfig (Example.impl true)
            (Example.codec [QJsonDocument.ofObject Example.twoConf])
            (Example.stateWithProfile []
              (Example.encode (QJsonDocument.ofObject Example.twoConf)))) = some s3 ∧
        stored s3.profile_config =
          some (Example.encode (QJsonDocument.ofObject Example.twoConf)) := by
  refine ⟨Example.wellFormed_stateOf_two, rfl, rfl, ?_⟩
  obtain ⟨s1, h1, h2, _, hall⟩ :=
    SaveConfig_LoadConfig_roundtrip (Example.impl true)
      (Example.codec [QJsonDocument.ofObject Example.twoConf])
      (Example.stateOf [Example.endpoint "a", Example.endpoint "b"])
      Example.wellFormed_stateOf_two (fun _ => rfl) rfl (by decide)
  obtain ⟨_, hreg, _, s3, h3, h4, _⟩ :=
    hall (Example.stateWithProfile [] (Example.encode (QJsonDocument.ofObject Example.twoConf)))
      (Example.wellFormed_stateWithProfile_nil _) (by rw [h2]; rfl)
  exact ⟨s1, h1, h2, hreg, s3, h3, by rw [h4, h2]; rfl⟩

/-- C2: for every well-formed state and every stored value that decodes to a
JSON object, no push widget that existed before `LoadConfig` is enumerated
after it or is still a child of the container, and the registry is exactly
the list of the widgets created, at fresh addresses, from the object entries
of the array `targets`, in the order of the document; it is empty when the
object has no array under `targets`. -/
theorem LoadConfig_replaces_members (M : PushWidgetImpl W) (E : QtCodec) (s : State W)
    (h : WellFormed s) (str : String) (conf : QJsonObject)
    (hstr : LoadConfig.base64str s = some str) (hne : str ≠ "")
    (hdec : E.fromBase64Json str = QJsonDocument.ofObject conf) :
    (∀ x ∈ GetAllPushWidgets s, x ∉ GetAllPushWidgets (LoadConfig M E s)) ∧
    (∀ c ∈ s.children, c.objectName = "push-widget" →
      ∀ d ∈ (LoadConfig M E s).children, d.ptr ≠ c.ptr) ∧
    registry (LoadConfig M E s) =
      (List.range' s.fresh (targetObjects conf).length).zip
        ((targetObjects conf).map M.create) ∧
    GetAllPushWidgets (LoadConfig M E s) =
      (List.range' s.fresh (targetObjects conf).length).map some ∧
    ((∀ a, QJsonObject.find conf "targets" ≠ some (QJsonValue.array a)) →
      registry (LoadConfig M E s) = []) := by
  rw [LoadConfig_object M E s h str conf hstr hne hdec]
  refine ⟨?_, ?_, registry_afterLoad M conf s, GetAllPushWidgets_afterLoad M conf s h, ?_⟩
  · intro x hx hx1
    obtain ⟨p, rfl, hp⟩ := GetAllPushWidgets_lt s h x hx
    rw [GetAllPushWidgets_afterLoad M conf s h] at hx1
    obtain ⟨q, hq, hqp⟩ := List.mem_map.mp hx1
    have : q = p := Option.some.inj hqp
    have := (List.mem_range'_1.mp hq).1
    omega
  · intro c hc hn d hd hdc
    simp only [State.afterLoad, List.mem_append] at hd
    rcases hd with hd | hd
    · have hd1 := List.mem_filter.mp hd
      have : d = c := ptr_injOn _ h.nodup hd1.1 hc hdc
      rw [this] at hd1
      simp [hn] at hd1
    · have := (mem_newWidgets M _ _ d hd).2.2.1
      have := h.below c hc
      omega
  · intro hno
    rw [registry_afterLoad]
    have : targetObjects conf = [] := by
      unfold targetObjects
      cases hf : QJsonObject.find conf "targets" with
      | none => rfl
      | some t =>
        cases t with
        | array a => exact absurd hf (hno a)
        | _ => rfl
    simp [this]

/-- C3, amended: when the value `LoadConfig` reads is absent, empty or does
not decode to a JSON object, `LoadConfig` leaves the state as it was: no
target is deleted and none is created, so the registry is empty afterwards
exactly when it was empty before. -/
theorem LoadConfig_failure_keeps_registry (M : PushWidgetImpl W) (E : QtCodec) (s : State W)
    (hfail : LoadConfig.base64str s = none ∨ LoadConfig.base64str s = some "" ∨
      ∃ str, LoadConfig.base64str s = some str ∧ (E.fromBase64Json str).isObject = false) :
    LoadConfig M E s = s ∧
    GetAllPushWidgets (LoadConfig M E s) = GetAllPushWidgets s ∧
    registry (LoadConfig M E s) = registry s ∧
    (registry (LoadConfig M E s) = [] ↔ registry s = []) := by
  have e : LoadConfig M E s = s := LoadConfig.fromString_failed M E s _ hfail
  rw [e]
  exact ⟨rfl, rfl, rfl, Iff.rfl⟩

/-- C4: for every well-formed state and every stored value that decodes to a
JSON object whose `targets` is an array, `LoadConfig` creates one target per
entry that is an object and none for the other entries, keeping the order of
the object entries; in particular an array of one object and one entry that
is not an object yields a registry of exactly one target. -/
theorem LoadConfig_partial_tolerance (M : PushWidgetImpl W) (E : QtCodec) (s : State W)
    (h : WellFormed s) (str : String) (conf : QJsonObject) (a : QJsonArray)
    (hstr : LoadConfig.base64str s = some str) (hne : str ≠ "")
    (hdec : E.fromBase64Json str = QJsonDocument.ofObject conf)
    (htargets : QJsonObject.find conf "targets" = some (QJsonValue.array a)) :
    (registry (LoadConfig M E s)).map Prod.snd =
      (a.filterMap QJsonValue.asObject).map M.create ∧
    (registry (LoadConfig M E s)).length = a.countP QJsonValue.isObject ∧
    (∀ o x, x.isObject = false →
      a = [QJsonValue.object o, x] ∨ a = [x, QJsonValue.object o] →
      (registry (LoadConfig M E s)).map Prod.snd = [M.create o]) := by
  have ht : targetObjects conf = a.filterMap QJsonValue.asObject := by
    simp [targetObjects, htargets]
  have hsnd : (registry (LoadConfig M E s)).map Prod.snd =
      (a.filterMap QJsonValue.asObject).map M.create := by
    rw [LoadConfig_object M E s h str conf hstr hne hdec, registry_afterLoad_snd, ht]
  refine ⟨hsnd, ?_, ?_⟩
  · have := congrArg List.length hsnd
    simpa [length_filterMap_asObject] using this
  · intro o x hx ha
    rw [hsnd]
    rcases ha with ha | ha <;> subst ha <;> cases x <;>
      simp_all [QJsonValue.asObject, QJsonValue.isObject]

theorem Example.wellFormed_stateOf_old : WellFormed (Example.stateOf [Example.endpoint "old"]) := by
  decide

theorem Example.wellFormed_stateWithProfile_old (value : String) :
    WellFormed (Example.stateWithProfile [Example.endpoint "old"] value) :=
  ⟨Example.wellFormed_stateOf_old.nodup, Example.wellFormed_stateOf_old.below,
    Example.wellFormed_stateOf_old.isPush⟩

/-- A concrete run: one old target at address 3 and a profile store that holds
the document of two targets; afterwards the registry is the two new targets
at the addresses 4 and 5. -/
theorem LoadConfig_replaces_members_witness :
    WellFormed (Example.stateWithProfile [Example.endpoint "old"]
      (Example.encode (QJsonDocument.ofObject Example.twoConf))) ∧
    LoadConfig.base64str (Example.stateWithProfile [Example.endpoint "old"]
        (Example.encode (QJsonDocument.ofObject Example.twoConf))) =
      some (Example.encode (QJsonDocument.ofObject Example.twoConf)) ∧
    GetAllPushWidgets (Example.stateWithProfile [Example.endpoint "old"]
        (Example.encode (QJsonDocument.ofObject Example.twoConf))) = [some 3] ∧
    registry (LoadConfig (Example.impl true)
        (Example.codec [QJsonDocument.ofObject Example.twoConf])
        (Example.stateWithProfile [Example.endpoint "old"]
          (Example.encode (QJsonDocument.ofObject Example.twoConf)))) =
      [(4, { conf := Example.endpoint "a", status := Example.Status.Idle }),
       (5, { conf := Example.endpoint "b", status := Example.Status.Idle })] :=
  ⟨Example.wellFormed_stateWithProfile_old _, rfl, rfl,
    (LoadConfig_replaces_members (Example.impl true)
      (Example.codec [QJsonDocument.ofObject Example.twoConf])
      (Example.stateWithProfile [Example.endpoint "old"]
        (Example.encode (QJsonDocument.ofObject Example.twoConf)))
      (Example.wellFormed_stateWithProfile_old _)
      (Example.encode (QJsonDocument.ofObject Example.twoConf)) Example.twoConf
      rfl (by decide) rfl).2.2.1⟩

/-- A concrete run with one target and nothing stored in either store:
`LoadConfig` fails to find a document and the target is still in the registry. -/
theorem LoadConfig_failure_empties_registry_counterexample :
    stored (Example.stateOf [Example.endpoint "a"]).profile_config = none ∧
    stored (Example.stateOf [Example.endpoint "a"]).global_config = none ∧
    GetAllPushWidgets (LoadConfig (Example.impl true) (Example.codec [])
        (Example.stateOf [Example.endpoint "a"])) = [some 3] ∧
    registry (LoadConfig (Example.impl true) (Example.codec [])
        (Example.stateOf [Example.endpoint "a"])) =
      [(3, { conf := Example.endpoint "a", status := Example.Status.Idle })] :=
  ⟨rfl, rfl, rfl, rfl⟩

/-- A concrete run: the profile store holds the text of an array, which is
not an object, and the one target stays. -/
theorem LoadConfig_failure_keeps_registry_witness :
    LoadConfig.base64str (Example.stateWithProfile [Example.endpoint "a"] "[]") = some "[]" ∧
    ((Example.codec [QJsonDocument.ofArray []]).fromBase64Json "[]").isObject = false ∧
    registry (LoadConfig (Example.impl true) (Example.codec [QJsonDocument.ofArray []])
        (Example.stateWithProfile [Example.endpoint "a"] "[]")) =
      [(3, { conf := Example.endpoint "a", status := Example.Status.Idle })] :=
  ⟨rfl, rfl,
    (LoadConfig_failure_keeps_registry (Example.impl true)
      (Example.codec [QJsonDocument.ofArray []])
      (Example.stateWithProfile [Example.endpoint "a"] "[]")
      (Or.inr (Or.inr ⟨"[]", rfl, rfl⟩))).2.2.1⟩

/-- A concrete run: the array of targets holds one object and one string, and
the registry afterwards holds exactly the target of the object. -/
theorem LoadConfig_partial_tolerance_witness :
    WellFormed (Example.stateWithProfile [Example.endpoint "old"]
      (Example.encode (QJsonDocument.ofObject Example.mixedConf))) ∧
    QJsonObject.find Example.mixedConf "targets" =
      some (QJsonValue.array
        [QJsonValue.object (Example.endpoint "a"), QJsonValue.string "oops"]) ∧
    (registry (LoadConfig (Example.impl true)
        (Example.codec [QJsonDocument.ofObject Example.mixedConf])
        (Example.stateWithProfile [Example.endpoint "old"]
          (Example.encode (QJsonDocument.ofObject Example.mixedConf))))).map Prod.snd =
      [{ conf := Example.endpoint "a", status := Example.Status.Idle }] :=
  ⟨Example.wellFormed_stateWithProfile_old _, rfl,
    (LoadConfig_partial_tolerance (Example.impl true)
      (Example.codec [QJsonDocument.ofObject Example.mixedConf])
      (Example.stateWithProfile [Example.endpoint "old"]
        (Example.encode (QJsonDocument.ofObject Example.mixedConf)))
      (Example.wellFormed_stateWithProfile_old _)
      (Example.encode (QJsonDocument.ofObject Example.mixedConf)) Example.mixedConf _
      rfl (by decide) rfl rfl).1⟩

theorem storeUntouched_afterEach (f : W → W) (call : Nat → Call) (s : State W)
    (hcall : ∀ x, (call x).isStoreWrite = false) :
    StoreUntouched s (s.afterEach f call) := by
  refine ⟨rfl, rfl, ?_⟩
  simp [storeWrites, State.afterEach, List.filter_append, List.filter_map, Function.comp_def,
    hcall]

/-- C5: for every host event and every well-formed state, the callback first
calls `OnOBSEvent` with that event on every target exactly once, in the order
of the registry (the list `GetAllPushWidgets` returns), without touching a
store, and only then reacts: on the exit event it runs `SaveConfig` on the
state the handlers left, so the calls that write the store come after all the
calls of `OnOBSEvent` and the document stored is built from the configurations
as the exit handlers left them; on a change of profile it runs `LoadConfig` on
that state; on any other event it does nothing more. -/
theorem frontend_event_callback_order (M : PushWidgetImpl W) (E : QtCodec)
    (event : obs_frontend_event) (s : State W) (h : WellFormed s) :
    GetAllPushWidgets s = (registry s).map (fun r => some r.1) ∧
    ∃ s1,
      forEach (M.OnOBSEvent event) (fun x => Call.OnOBSEvent x event) (GetAllPushWidgets s) s =
        some s1 ∧
      s1.calls = s.calls ++ (registry s).map (fun r => Call.OnOBSEvent r.1 event) ∧
      ((registry s).map Prod.fst).Nodup ∧
      registry s1 = (registry s).map (fun r => (r.1, M.OnOBSEvent event r.2)) ∧
      StoreUntouched s s1 ∧
      (event = obs_frontend_event.OBS_FRONTEND_EVENT_EXIT →
        ∃ s2, frontend_event_callback M E event s = some s2 ∧
          SaveConfig M E s1 = some s2 ∧
          s2.calls = s.calls ++ (registry s).map (fun r => Call.OnOBSEvent r.1 event) ++
            [Call.config_set_string ConfigHandle.profile_config ConfigSection "json"
               (E.toBase64Json (documentOf
                 ((registry s).map (fun r => M.Config (M.OnOBSEvent event r.2))))),
             Call.config_save_safe ConfigHandle.profile_config] ∧
          stored s2.profile_config =
            some (E.toBase64Json (documentOf
              ((registry s).map (fun r => M.Config (M.OnOBSEvent event r.2))))) ∧
          registry s2 = registry s1) ∧
      (event = obs_frontend_event.OBS_FRONTEND_EVENT_PROFILE_CHANGED →
        frontend_event_callback M E event s = some (LoadConfig M E s1)) ∧
      (event ≠ obs_frontend_event.OBS_FRONTEND_EVENT_EXIT →
        event ≠ obs_frontend_event.OBS_FRONTEND_EVENT_PROFILE_CHANGED →
        frontend_event_callback M E event s = some s1) := by
  have hfan := forEach_GetAllPushWidgets (M.OnOBSEvent event) (fun x => Call.OnOBSEvent x event) s h
  have hwf := wellFormed_afterEach (M.OnOBSEvent event) (fun x => Call.OnOBSEvent x event) s h
  have hreg := registry_afterEach (M.OnOBSEvent event) (fun x => Call.OnOBSEvent x event) s
  refine ⟨GetAllPushWidgets_registry s h, _, hfan, rfl, registry_fst_nodup s h, hreg,
    storeUntouched_afterEach _ _ s (fun _ => rfl), ?_, ?_, ?_⟩
  · intro he
    have hsave := SaveConfig_eq M E _ hwf
    rw [hreg, List.map_map] at hsave
    refine ⟨_, ?_, hsave, ?_, ?_, ?_⟩
    · rw [frontend_event_callback, hfan]
      simp only [he, if_true]
      rw [← he]; exact hsave
    · simp [State.afterSave, State.afterEach, Function.comp_def]
    · simp [stored_afterSave, Function.comp_def]
    · rfl
  · intro he
    subst he
    simp [frontend_event_callback, hfan]
  · intro h1 h2
    simp [frontend_event_callback, hfan, h1, h2]

theorem Example.wellFormed_stateOf_transient :
    WellFormed (Example.stateOf [Example.transientConf, Example.endpoint "b"]) := by
  decide

/-- A concrete run of the exit event on two targets, the first of which drops
the member `transient` in its handler: both handlers run before the two calls
that write the store, and the document stored has no such member. -/
theorem frontend_event_callback_order_witness :
    WellFormed (Example.stateOf [Example.transientConf, Example.endpoint "b"]) ∧
    ∃ s2,
      frontend_event_callback (Example.impl true) (Example.codec [])
        obs_frontend_event.OBS_FRONTEND_EVENT_EXIT
        (Example.stateOf [Example.transientConf, Example.endpoint "b"]) = some s2 ∧
      s2.calls =
        [Call.OnOBSEvent 3 obs_frontend_event.OBS_FRONTEND_EVENT_EXIT,
         Call.OnOBSEvent 4 obs_frontend_event.OBS_FRONTEND_EVENT_EXIT,
         Call.config_set_string ConfigHandle.profile_config ConfigSection "json"
           (Example.encode (QJsonDocument.ofObject Example.twoConf)),
         Call.config_save_safe ConfigHandle.profile_config] ∧
      stored s2.profile_config =
        some (Example.encode (QJsonDocument.ofObject Example.twoConf)) := by
  refine ⟨Example.wellFormed_stateOf_transient, ?_⟩
  obtain ⟨_, _, _, _, _, _, _, hexit, _, _⟩ :=
    frontend_event_callback_order (Example.impl true) (Example.codec [])
      obs_frontend_event.OBS_FRONTEND_EVENT_EXIT
      (Example.stateOf [Example.transientConf, Example.endpoint "b"])
      Example.wellFormed_stateOf_transient
  obtain ⟨s2, h1, _, h3, h4, _⟩ := hexit rfl
  exact ⟨s2, h1, h3, h4⟩

/-- C6: for every task, `RunInUIThread` on a service whose `uiThread_` is
null, as it is until the functor of `obs_module_load` has run, returns false
and leaves the service as it was, so the task is neither run nor submitted;
on a service whose `uiThread_` was designated it returns true and submits the
task exactly once, to the designated thread, after the submissions made
before. -/
theorem RunInUIThread_designation {F : Type} (g : GlobalServiceImpl F) (task : F) :
    (s_service F).uiThread_ = none ∧
    (g.uiThread_ = none → g.RunInUIThread task = (false, g)) ∧
    (∀ thread, g.uiThread_ = some thread →
      g.RunInUIThread task = (true, { g with invoked := g.invoked ++ [(thread, task)] })) ∧
    (∀ thread, (obs_module_load.designate thread g).uiThread_ = some thread ∧
      (obs_module_load.designate thread g).invoked = g.invoked ∧
      ((obs_module_load.designate thread g).RunInUIThread task).1 = true ∧
      ((obs_module_load.designate thread g).RunInUIThread task).2.invoked =
        g.invoked ++ [(thread, task)]) := by
  refine ⟨rfl, ?_, ?_, ?_⟩
  · intro h
    simp [GlobalServiceImpl.RunInUIThread, h]
  · intro thread h
    simp [GlobalServiceImpl.RunInUIThread, h]
  · intro thread
    simp [GlobalServiceImpl.RunInUIThread, obs_module_load.designate]

/-- A concrete run: the service as initialised refuses the task; after the
thread at address 7 was designated the task is submitted to it once. -/
theorem RunInUIThread_designation_witness :
    (s_service String).uiThread_ = none ∧
    (s_service String).RunInUIThread "task" = (false, s_service String) ∧
    (obs_module_load.designate 7 (s_service String)).uiThread_ = some 7 ∧
    (obs_module_load.designate 7 (s_service String)).RunInUIThread "task" =
      (true, { uiThread_ := some 7, invoked := [(7, "task")] }) :=
  ⟨rfl,
    (RunInUIThread_designation (s_service String) "task").2.1 rfl,
    rfl,
    (RunInUIThread_designation (obs_module_load.designate 7 (s_service String)) "task").2.2.1
      7 rfl⟩

theorem LoadConfig.fromString_frame (M : PushWidgetImpl W) (E : QtCodec)
    (base64str : Option String) (s : State W) :
    (LoadConfig.fromString M E base64str s).profile_config = s.profile_config ∧
    (LoadConfig.fromString M E base64str s).global_config = s.global_config ∧
    (LoadConfig.fromString M E base64str s).calls = s.calls := by
  cases base64str with
  | none => simp [LoadConfig.fromString, QJsonObject.find]
  | some str =>
    by_cases hstr : str = ""
    · simp [LoadConfig.fromString, hstr, QJsonObject.find]
    · by_cases hobj : (E.fromBase64Json str).isObject = true
      · simp only [LoadConfig.fromString, hstr, hobj, if_true, if_false]
        cases QJsonObject.find (E.fromBase64Json str).object "targets" with
        | none => simp [deleteLoop_eq]
        | some t => by_cases ht : t.isArray = true <;> simp [ht, deleteLoop_eq, createLoop_eq]
      · simp [LoadConfig.fromString, hstr, hobj, QJsonObject.find]

theorem LoadConfig.fromString_global (M : PushWidgetImpl W) (E : QtCodec)
    (base64str : Option String) (s : State W) (g : config_t) :
    LoadConfig.fromString M E base64str { s with global_config := g } =
      { LoadConfig.fromString M E base64str s with global_config := g } := by
  cases base64str with
  | none => simp [LoadConfig.fromString, QJsonObject.find]
  | some str =>
    by_cases hstr : str = ""
    · simp [LoadConfig.fromString, hstr, QJsonObject.find]
    · by_cases hobj : (E.fromBase64Json str).isObject = true
      · simp only [LoadConfig.fromString, hstr, hobj, if_true, if_false]
        cases QJsonObject.find (E.fromBase64Json str).object "targets" with
        | none => simp [deleteLoop_eq, GetAllPushWidgets]
        | some t =>
          by_cases ht : t.isArray = true <;>
            simp [ht, deleteLoop_eq, createLoop_eq, GetAllPushWidgets]
      · simp [LoadConfig.fromString, hstr, hobj, QJsonObject.find]

/-- C7: `LoadConfig` decodes the value of the legacy global store exactly
when the profile store has no value or the empty string under the key; a
non-empty profile value is the one decoded, whatever it decodes to, and the
result of `LoadConfig` is then the same for every content of the global
store.  `SaveConfig` sets and commits the value in the profile store only:
the global store is unchanged and the two calls that write a store address
the profile store. -/
theorem legacy_fallback_one_way (M : PushWidgetImpl W) (E : QtCodec) (s : State W)
    (h : WellFormed s) :
    ((stored s.profile_config = none ∨ stored s.profile_config = some "") →
      LoadConfig.base64str s = stored s.global_config ∧
      LoadConfig M E s = LoadConfig.fromString M E (stored s.global_config) s) ∧
    (∀ str, stored s.profile_config = some str → str ≠ "" →
      LoadConfig.base64str s = some str ∧
      LoadConfig M E s = LoadConfig.fromString M E (some str) s ∧
      ∀ g, LoadConfig M E { s with global_config := g } =
        { LoadConfig M E s with global_config := g }) ∧
    (LoadConfig M E s).global_config = s.global_config ∧
    (∃ s1, SaveConfig M E s = some s1 ∧
      s1.global_config = s.global_config ∧
      stored s1.profile_config =
        some (E.toBase64Json (documentOf ((registry s).map (fun r => M.Config r.2)))) ∧
      s1.calls = s.calls ++
        [Call.config_set_string ConfigHandle.profile_config ConfigSection "json"
           (E.toBase64Json (documentOf ((registry s).map (fun r => M.Config r.2)))),
         Call.config_save_safe ConfigHandle.profile_config]) := by
  refine ⟨?_, ?_, (LoadConfig.fromString_frame M E _ s).2.1, ?_⟩
  · intro hs
    have e := base64str_of_missing s hs
    exact ⟨e, by rw [LoadConfig, e]⟩
  · intro str hs hne
    have e := base64str_of_stored s str hs hne
    refine ⟨e, by rw [LoadConfig, e], ?_⟩
    intro g
    have e1 : LoadConfig.base64str { s with global_config := g } = some str :=
      base64str_of_stored _ str hs hne
    rw [LoadConfig, LoadConfig, e, e1]
    exact LoadConfig.fromString_global M E _ s g
  · exact ⟨_, SaveConfig_eq M E s h, rfl, stored_afterSave _ s, rfl⟩

theorem Example.wellFormed_stateWithGlobal_old (value : String) :
    WellFormed (Example.stateWithGlobal [Example.endpoint "old"] value) :=
  ⟨Example.wellFormed_stateOf_old.nodup, Example.wellFormed_stateOf_old.below,
    Example.wellFormed_stateOf_old.isPush⟩

/-- A concrete run: only the global store holds a document, so `LoadConfig`
decodes that one, and `SaveConfig` leaves the global store as it was. -/
theorem legacy_fallback_one_way_witness :
    WellFormed (Example.stateWithGlobal [Example.endpoint "old"]
      (Example.encode (QJsonDocument.ofObject Example.twoConf))) ∧
    stored (Example.stateWithGlobal [Example.endpoint "old"]
      (Example.encode (QJsonDocument.ofObject Example.twoConf))).profile_config = none ∧
    LoadConfig.base64str (Example.stateWithGlobal [Example.endpoint "old"]
        (Example.encode (QJsonDocument.ofObject Example.twoConf))) =
      some (Example.encode (QJsonDocument.ofObject Example.twoConf)) ∧
    ∃ s1, SaveConfig (Example.impl true) (Example.codec [])
        (Example.stateWithGlobal [Example.endpoint "old"]
          (Example.encode (QJsonDocument.ofObject Example.twoConf))) = some s1 ∧
      s1.global_config =
        Example.configWith (Example.encode (QJsonDocument.ofObject Example.twoConf)) ∧
      stored s1.profile_config =
        some (Example.encode (documentOf [Example.endpoint "old"])) := by
  refine ⟨Example.wellFormed_stateWithGlobal_old _, rfl, ?_, ?_⟩
  · exact ((legacy_fallback_one_way (Example.impl true) (Example.codec [])
      (Example.stateWithGlobal [Example.endpoint "old"]
        (Example.encode (QJsonDocument.ofObject Example.twoConf)))
      (Example.wellFormed_stateWithGlobal_old _)).1 (Or.inl rfl)).1
  · obtain ⟨s1, h1, h2, h3, _⟩ :=
      (legacy_fallback_one_way (Example.impl true) (Example.codec [])
        (Example.stateWithGlobal [Example.endpoint "old"]
          (Example.encode (QJsonDocument.ofObject Example.twoConf)))
        (Example.wellFormed_stateWithGlobal_old _)).2.2.2
    exact ⟨s1, h1, h2, h3⟩

/-- A concrete run of the action for a new target on a dock widget without
targets: in the state in which the edit dialog is shown the new widget, at
address 3, is enumerated by `GetAllPushWidgets`, so that an event delivered or
a start of all targets in that state reaches it. -/
theorem unconfirmed_target_enumerated_counterexample :
    GetAllPushWidgets (Example.stateOf []) = [] ∧
    (addButton_clicked.created (Example.impl false) (Example.stateOf [])).1 = 3 ∧
    GetAllPushWidgets (addButton_clicked.created (Example.impl false) (Example.stateOf [])).2 =
      [some 3] ∧
    (frontend_event_callback (Example.impl false) (Example.codec [])
        (obs_frontend_event.other 0)
        (addButton_clicked.created (Example.impl false) (Example.stateOf [])).2).map State.calls =
      some [Call.OnOBSEvent 3 (obs_frontend_event.other 0)] ∧
    (startAllButton_clicked (Example.impl false)
        (addButton_clicked.created (Example.impl false) (Example.stateOf [])).2).map State.calls =
      some [Call.StartStreaming 3] :=
  ⟨rfl, rfl, rfl, rfl, rfl⟩

theorem storeWrites_append_ShowEditDlg (calls : List Call) (x : Nat) :
    storeWrites (calls ++ [Call.ShowEditDlg x]) = storeWrites calls := by
  simp [storeWrites, List.filter_append, Call.isStoreWrite]

/-- C8, amended: in the action for a new target the new widget is a child of
the container, and the last entry of `GetAllPushWidgets`, from its creation
on, while the edit dialog is shown; when the dialog is cancelled the widget is
deleted, so that the children, the enumeration, the registry and both stores
are after the action what they were before it, and no call wrote a store. -/
theorem addButton_clicked_cancel_discards (M : PushWidgetImpl W) (E : QtCodec) (s : State W)
    (h : WellFormed s) :
    (addButton_clicked.created M s).1 = s.fresh ∧
    GetAllPushWidgets (addButton_clicked.created M s).2 =
      GetAllPushWidgets s ++ [some s.fresh] ∧
    registry (addButton_clicked.created M s).2 = registry s ++ [(s.fresh, M.create [])] ∧
    ((M.ShowEditDlg (M.create [])).1 = false →
      ∃ s1, addButton_clicked M E s = some s1 ∧
        s1.children = s.children ∧
        GetAllPushWidgets s1 = GetAllPushWidgets s ∧
        registry s1 = registry s ∧
        StoreUntouched s s1) := by
  refine ⟨rfl, ?_, ?_, ?_⟩
  · simp [GetAllPushWidgets_eq, addButton_clicked.created, createPushWidget,
      List.filter_append, dynamic_cast]
  · simp [registry, addButton_clicked.created, createPushWidget, List.filterMap_append]
  · intro hno
    refine ⟨_, addButton_clicked_cancelled M E s h hno, rfl, rfl, rfl, rfl, rfl, ?_⟩
    exact storeWrites_append_ShowEditDlg _ _

theorem Example.wellFormed_stateOf_a : WellFormed (Example.stateOf [Example.endpoint "a"]) := by
  decide

/-- A concrete run: one target at address 3; the new widget at address 4 is
enumerated while the dialog is shown and gone after the dialog was cancelled. -/
theorem addButton_clicked_cancel_discards_witness :
    WellFormed (Example.stateOf [Example.endpoint "a"]) ∧
    ((Example.impl false).ShowEditDlg ((Example.impl false).create [])).1 = false ∧
    GetAllPushWidgets (addButton_clicked.created (Example.impl false)
      (Example.stateOf [Example.endpoint "a"])).2 = [some 3, some 4] ∧
    ∃ s1, addButton_clicked (Example.impl false) (Example.codec [])
        (Example.stateOf [Example.endpoint "a"]) = some s1 ∧
      GetAllPushWidgets s1 = [some 3] ∧
      stored s1.profile_config = none := by
  refine ⟨Example.wellFormed_stateOf_a, rfl, rfl, ?_⟩
  obtain ⟨s1, h1, _, h3, _, h5, _⟩ :=
    (addButton_clicked_cancel_discards (Example.impl false) (Example.codec [])
      (Example.stateOf [Example.endpoint "a"]) Example.wellFormed_stateOf_a).2.2.2 rfl
  exact ⟨s1, h1, h3, by rw [h5]; rfl⟩

theorem frontend_event_callback_exit (M : PushWidgetImpl W) (E : QtCodec) (s : State W)
    (h : WellFormed s) :
    frontend_event_callback M E obs_frontend_event.OBS_FRONTEND_EVENT_EXIT s =
      some ((s.afterEach (M.OnOBSEvent obs_frontend_event.OBS_FRONTEND_EVENT_EXIT)
          (fun x => Call.OnOBSEvent x obs_frontend_event.OBS_FRONTEND_EVENT_EXIT)).afterSave
        (E.toBase64Json (documentOf ((registry s).map (fun r =>
          M.Config (M.OnOBSEvent obs_frontend_event.OBS_FRONTEND_EVENT_EXIT r.2)))))) := by
  rw [frontend_event_callback, forEach_GetAllPushWidgets _ _ s h]
  simp only [if_true]
  rw [SaveConfig_eq M E _ (wellFormed_afterEach _ _ s h), registry_afterEach, List.map_map]
  rfl

theorem frontend_event_callback_profile (M : PushWidgetImpl W) (E : QtCodec) (s : State W)
    (h : WellFormed s) :
    frontend_event_callback M E obs_frontend_event.OBS_FRONTEND_EVENT_PROFILE_CHANGED s =
      some (LoadConfig M E
        (s.afterEach (M.OnOBSEvent obs_frontend_event.OBS_FRONTEND_EVENT_PROFILE_CHANGED)
          (fun x => Call.OnOBSEvent x obs_frontend_event.OBS_FRONTEND_EVENT_PROFILE_CHANGED))) := by
  rw [frontend_event_callback, forEach_GetAllPushWidgets _ _ s h]
  simp

theorem frontend_event_callback_other (M : PushWidgetImpl W) (E : QtCodec) (s : State W)
    (h : WellFormed s) (code : Nat) :
    frontend_event_callback M E (obs_frontend_event.other code) s =
      some (s.afterEach (M.OnOBSEvent (obs_frontend_event.other code))
        (fun x => Call.OnOBSEvent x (obs_frontend_event.other code))) := by
  rw [frontend_event_callback, forEach_GetAllPushWidgets _ _ s h]
  simp

theorem storeUntouched_LoadConfig (M : PushWidgetImpl W) (E : QtCodec) (s : State W) :
    StoreUntouched s (LoadConfig M E s) := by
  obtain ⟨h1, h2, h3⟩ := LoadConfig.fromString_frame M E (LoadConfig.base64str s) s
  exact ⟨h1, h2, by rw [LoadConfig, h3]⟩

theorem StoreUntouched.trans {s s1 s2 : State W} (h1 : StoreUntouched s s1)
    (h2 : StoreUntouched s1 s2) : StoreUntouched s s2 :=
  ⟨h2.1.trans h1.1, h2.2.1.trans h1.2.1, h2.2.2.trans h1.2.2⟩

theorem storeWrites_afterSave (value : String) (s : State W) :
    storeWrites (s.afterSave value).calls = storeWrites s.calls ++
      [Call.config_set_string ConfigHandle.profile_config ConfigSection "json" value,
       Call.config_save_safe ConfigHandle.profile_config] := by
  simp [storeWrites, State.afterSave, List.filter_append, Call.isStoreWrite]

/-- C9, amended: the store is written, by `SaveConfig`, in the reaction to the
exit event and when the dialog of a new target is confirmed, and at no other
point: for every well-formed state, cancelling a new target, starting all
targets, stopping all targets, `LoadConfig` and the callback for every event
other than exit leave both stores as they were and add no call that writes a
store, while the exit event and a confirmed new target each add exactly the
two calls of `SaveConfig`. -/
theorem store_written_on_exit_and_confirm_only (M : PushWidgetImpl W) (E : QtCodec)
    (s : State W) (h : WellFormed s) :
    (∃ s1, frontend_event_callback M E obs_frontend_event.OBS_FRONTEND_EVENT_EXIT s = some s1 ∧
      storeWrites s1.calls = storeWrites s.calls ++
        [Call.config_set_string ConfigHandle.profile_config ConfigSection "json"
           (E.toBase64Json (documentOf ((registry s).map (fun r =>
             M.Config (M.OnOBSEvent obs_frontend_event.OBS_FRONTEND_EVENT_EXIT r.2))))),
         Call.config_save_safe ConfigHandle.profile_config]) ∧
    ((M.ShowEditDlg (M.create [])).1 = true →
      ∃ s1, addButton_clicked M E s = some s1 ∧
        storeWrites s1.calls = storeWrites s.calls ++
          [Call.config_set_string ConfigHandle.profile_config ConfigSection "json"
             (E.toBase64Json (documentOf ((registry s).map (fun r => M.Config r.2) ++
               [M.Config (M.ShowEditDlg (M.create [])).2]))),
           Call.config_save_safe ConfigHandle.profile_config] ∧
        stored s1.profile_config =
          some (E.toBase64Json (documentOf ((registry s).map (fun r => M.Config r.2) ++
            [M.Config (M.ShowEditDlg (M.create [])).2])))) ∧
    ((M.ShowEditDlg (M.create [])).1 = false →
      ∃ s1, addButton_clicked M E s = some s1 ∧ StoreUntouched s s1) ∧
    (∃ s1, startAllButton_clicked M s = some s1 ∧ StoreUntouched s s1) ∧
    (∃ s1, stopAllButton_clicked M s = some s1 ∧ StoreUntouched s s1) ∧
    StoreUntouched s (LoadConfig M E s) ∧
    (∀ event, event ≠ obs_frontend_event.OBS_FRONTEND_EVENT_EXIT →
      ∃ s1, frontend_event_callback M E event s = some s1 ∧ StoreUntouched s s1) := by
  refine ⟨⟨_, frontend_event_callback_exit M E s h, ?_⟩, ?_, ?_, ?_, ?_,
    storeUntouched_LoadConfig M E s, ?_⟩
  · rw [storeWrites_afterSave,
      (storeUntouched_afterEach (M.OnOBSEvent obs_frontend_event.OBS_FRONTEND_EVENT_EXIT)
        (fun x => Call.OnOBSEvent x obs_frontend_event.OBS_FRONTEND_EVENT_EXIT) s
        (fun _ => rfl)).2.2]
  · intro hok
    refine ⟨_, addButton_clicked_confirmed M E s h hok, ?_, stored_afterSave _ _⟩
    rw [storeWrites_afterSave]
    simp [State.afterDialog, storeWrites_append_ShowEditDlg]
  · intro hno
    exact ⟨_, addButton_clicked_cancelled M E s h hno, rfl, rfl,
      storeWrites_append_ShowEditDlg _ _⟩
  · exact ⟨_, forEach_GetAllPushWidgets _ _ s h, storeUntouched_afterEach _ _ s (fun _ => rfl)⟩
  · exact ⟨_, forEach_GetAllPushWidgets _ _ s h, storeUntouched_afterEach _ _ s (fun _ => rfl)⟩
  · intro event hev
    cases event with
    | OBS_FRONTEND_EVENT_EXIT => exact absurd rfl hev
    | OBS_FRONTEND_EVENT_PROFILE_CHANGED =>
      exact ⟨_, frontend_event_callback_profile M E s h,
        (storeUntouched_afterEach
          (M.OnOBSEvent obs_frontend_event.OBS_FRONTEND_EVENT_PROFILE_CHANGED)
          (fun x => Call.OnOBSEvent x obs_frontend_event.OBS_FRONTEND_EVENT_PROFILE_CHANGED) s
          (fun _ => rfl)).trans (storeUntouched_LoadConfig M E _)⟩
    | other code =>
      exact ⟨_, frontend_event_callback_other M E s h code,
        storeUntouched_afterEach _ _ s (fun _ => rfl)⟩

/-- A concrete run of the action for a new target, the dialog being
confirmed: the profile store, empty before, holds the document of the new
target afterwards, and the two calls of `SaveConfig` are on record. -/
theorem confirmed_target_writes_store_counterexample :
    stored (Example.stateOf []).profile_config = none ∧
    ((Example.impl true).ShowEditDlg ((Example.impl true).create [])).1 = true ∧
    (addButton_clicked (Example.impl true) (Example.codec []) (Example.stateOf [])).map
        (fun s1 => stored s1.profile_config) =
      some (some (Example.encode (documentOf [Example.endpoint "rtmp://new"]))) ∧
    (addButton_clicked (Example.impl true) (Example.codec []) (Example.stateOf [])).map
        (fun s1 => storeWrites s1.calls) =
      some [Call.config_set_string ConfigHandle.profile_config ConfigSection "json"
              (Example.encode (documentOf [Example.endpoint "rtmp://new"])),
            Call.config_save_safe ConfigHandle.profile_config] :=
  ⟨rfl, rfl, rfl, rfl⟩

/-- A concrete run: a cancelled new target and a start of all targets leave
the store alone. -/
theorem store_written_on_exit_and_confirm_only_witness :
    WellFormed (Example.stateOf [Example.endpoint "a"]) ∧
    ((Example.impl false).ShowEditDlg ((Example.impl false).create [])).1 = false ∧
    (∃ s1, addButton_clicked (Example.impl false) (Example.codec [])
        (Example.stateOf [Example.endpoint "a"]) = some s1 ∧
      StoreUntouched (Example.stateOf [Example.endpoint "a"]) s1) ∧
    (∃ s1, startAllButton_clicked (Example.impl false)
        (Example.stateOf [Example.endpoint "a"]) = some s1 ∧
      StoreUntouched (Example.stateOf [Example.endpoint "a"]) s1) :=
  ⟨Example.wellFormed_stateOf_a, rfl,
    (store_written_on_exit_and_confirm_only (Example.impl false) (Example.codec [])
      (Example.stateOf [Example.endpoint "a"]) Example.wellFormed_stateOf_a).2.2.1 rfl,
    (store_written_on_exit_and_confirm_only (Example.impl false) (Example.codec [])
      (Example.stateOf [Example.endpoint "a"]) Example.wellFormed_stateOf_a).2.2.2.1⟩

theorem children_ptr_afterEach (f : W → W) (call : Nat → Call) (s : State W) :
    (s.afterEach f call).children.map QObject.ptr = s.children.map QObject.ptr := by
  simp only [State.afterEach, List.map_map]
  apply List.map_congr_left
  intro c _
  by_cases hn : c.objectName = "push-widget" <;> simp [hn, QObject.update]

theorem GetAllPushWidgets_afterEach (f : W → W) (call : Nat → Call) (s : State W)
    (h : WellFormed s) :
    GetAllPushWidgets (s.afterEach f call) = GetAllPushWidgets s := by
  rw [GetAllPushWidgets_registry _ (wellFormed_afterEach f call s h),
    GetAllPushWidgets_registry s h, registry_afterEach, List.map_map]
  rfl

/-- C10: for every well-formed state, the action that starts all targets calls
`StartStreaming`, and the action that stops all targets calls `StopStreaming`,
on every member of the registry (the list `GetAllPushWidgets` returns) exactly
once and in the order of the registry,
whatever the call does to any member; each member is left as its own call
leaves it, and the members, their addresses and their order stay the same. -/
theorem startAll_stopAll_every_member (M : PushWidgetImpl W) (s : State W)
    (h : WellFormed s) :
    GetAllPushWidgets s = (registry s).map (fun r => some r.1) ∧
    ((registry s).map Prod.fst).Nodup ∧
    (∃ s1, startAllButton_clicked M s = some s1 ∧
      s1.calls = s.calls ++ (registry s).map (fun r => Call.StartStreaming r.1) ∧
      registry s1 = (registry s).map (fun r => (r.1, M.StartStreaming r.2)) ∧
      GetAllPushWidgets s1 = GetAllPushWidgets s ∧
      s1.children.map QObject.ptr = s.children.map QObject.ptr) ∧
    (∃ s1, stopAllButton_clicked M s = some s1 ∧
      s1.calls = s.calls ++ (registry s).map (fun r => Call.StopStreaming r.1) ∧
      registry s1 = (registry s).map (fun r => (r.1, M.StopStreaming r.2)) ∧
      GetAllPushWidgets s1 = GetAllPushWidgets s ∧
      s1.children.map QObject.ptr = s.children.map QObject.ptr) :=
  ⟨GetAllPushWidgets_registry s h, registry_fst_nodup s h,
    ⟨_, forEach_GetAllPushWidgets _ _ s h, rfl, registry_afterEach _ _ s,
      GetAllPushWidgets_afterEach _ _ s h, children_ptr_afterEach _ _ s⟩,
    ⟨_, forEach_GetAllPushWidgets _ _ s h, rfl, registry_afterEach _ _ s,
      GetAllPushWidgets_afterEach _ _ s h, children_ptr_afterEach _ _ s⟩⟩

theorem Example.wellFormed_stateOf_three :
    WellFormed (Example.stateOf [Example.endpoint "a", [], Example.endpoint "c"]) := by
  decide

/-- A concrete run with three targets of which the second has no endpoint:
all three are started, in order, and the first and the third end up
streaming although the second ends in `Error`. -/
theorem startAll_stopAll_every_member_witness :
    WellFormed (Example.stateOf [Example.endpoint "a", [], Example.endpoint "c"]) ∧
    ∃ s1, startAllButton_clicked (Example.impl true)
        (Example.stateOf [Example.endpoint "a", [], Example.endpoint "c"]) = some s1 ∧
      s1.calls = [Call.StartStreaming 3, Call.StartStreaming 4, Call.StartStreaming 5] ∧
      (registry s1).map (fun r => (r.1, r.2.status)) =
        [(3, Example.Status.Streaming), (4, Example.Status.Error),
         (5, Example.Status.Streaming)] := by
  refine ⟨Example.wellFormed_stateOf_three, ?_⟩
  obtain ⟨s1, h1, h2, h3, _⟩ :=
    (startAll_stopAll_every_member (Example.impl true)
      (Example.stateOf [Example.endpoint "a", [], Example.endpoint "c"])
      Example.wellFormed_stateOf_three).2.2.1
  exact ⟨s1, h1, h2, by rw [h3]; rfl⟩

/-! ## The invariant holds after construction and is kept by every operation -/

theorem LoadConfig_cases (M : PushWidgetImpl W) (E : QtCodec) (s : State W)
    (h : WellFormed s) :
    LoadConfig M E s = s ∨ ∃ conf, LoadConfig M E s = s.afterLoad M conf := by
  cases hb : LoadConfig.base64str s with
  | none => exact Or.inl (LoadConfig.fromString_failed M E s _ (Or.inl hb))
  | some str =>
    by_cases hne : str = ""
    · exact Or.inl (LoadConfig.fromString_failed M E s _ (Or.inr (Or.inl (by rw [hb, hne]))))
    · cases hd : E.fromBase64Json str with
      | ofObject conf => exact Or.inr ⟨conf, LoadConfig_object M E s h str conf hb hne hd⟩
      | null =>
        exact Or.inl (LoadConfig.fromString_failed M E s _
          (Or.inr (Or.inr ⟨str, hb, by rw [hd]; rfl⟩)))
      | ofArray a =>
        exact Or.inl (LoadConfig.fromString_failed M E s _
          (Or.inr (Or.inr ⟨str, hb, by rw [hd]; rfl⟩)))

theorem wellFormed_LoadConfig (M : PushWidgetImpl W) (E : QtCodec) (s : State W)
    (h : WellFormed s) : WellFormed (LoadConfig M E s) := by
  rcases LoadConfig_cases M E s h with e | ⟨conf, e⟩
  · rw [e]; exact h
  · rw [e]; exact wellFormed_afterLoad M conf s h

theorem wellFormed_constructed (M : PushWidgetImpl W) (E : QtCodec)
    (profile_config global_config : config_t) :
    WellFormed (MultiOutputWidget.constructed M E profile_config global_config) := by
  apply wellFormed_LoadConfig
  exact ⟨by simp, by simp, by simp⟩

theorem wellFormed_SaveConfig (M : PushWidgetImpl W) (E : QtCodec) (s s1 : State W)
    (h : WellFormed s) (hs : SaveConfig M E s = some s1) : WellFormed s1 := by
  rw [SaveConfig_eq M E s h] at hs
  rw [← Option.some.inj hs]
  exact wellFormed_afterSave _ s h

theorem wellFormed_startAllButton_clicked (M : PushWidgetImpl W) (s s1 : State W)
    (h : WellFormed s) (hs : startAllButton_clicked M s = some s1) : WellFormed s1 := by
  rw [startAllButton_clicked, forEach_GetAllPushWidgets _ _ s h] at hs
  rw [← Option.some.inj hs]
  exact wellFormed_afterEach _ _ s h

theorem wellFormed_stopAllButton_clicked (M : PushWidgetImpl W) (s s1 : State W)
    (h : WellFormed s) (hs : stopAllButton_clicked M s = some s1) : WellFormed s1 := by
  rw [stopAllButton_clicked, forEach_GetAllPushWidgets _ _ s h] at hs
  rw [← Option.some.inj hs]
  exact wellFormed_afterEach _ _ s h

theorem wellFormed_addButton_clicked (M : PushWidgetImpl W) (E : QtCodec) (s s1 : State W)
    (h : WellFormed s) (hs : addButton_clicked M E s = some s1) : WellFormed s1 := by
  cases hd : (M.ShowEditDlg (M.create [])).1 with
  | true =>
    rw [addButton_clicked_confirmed M E s h hd] at hs
    rw [← Option.some.inj hs]
    exact wellFormed_afterSave _ _ (wellFormed_afterDialog M s h)
  | false =>
    rw [addButton_clicked_cancelled M E s h hd] at hs
    rw [← Option.some.inj hs]
    exact ⟨h.nodup, fun c hc => Nat.lt_succ_of_lt (h.below c hc), h.isPush⟩

theorem wellFormed_frontend_event_callback (M : PushWidgetImpl W) (E : QtCodec)
    (event : obs_frontend_event) (s s1 : State W) (h : WellFormed s)
    (hs : frontend_event_callback M E event s = some s1) : WellFormed s1 := by
  cases event with
  | OBS_FRONTEND_EVENT_EXIT =>
    rw [frontend_event_callback_exit M E s h] at hs
    rw [← Option.some.inj hs]
    exact wellFormed_afterSave _ _ (wellFormed_afterEach _ _ s h)
  | OBS_FRONTEND_EVENT_PROFILE_CHANGED =>
    rw [frontend_event_callback_profile M E s h] at hs
    rw [← Option.some.inj hs]
    exact wellFormed_LoadConfig M E _ (wellFormed_afterEach _ _ s h)
  | other code =>
    rw [frontend_event_callback_other M E s h code] at hs
    rw [← Option.some.inj hs]
    exact wellFormed_afterEach _ _ s h

end ObsMultiRtmp
